import Mathlib

/-!
# discordrpcgenerator: validating activity builders

A shallow embedding of `discordrpcgenerator.go`.

* Go strings are modelled by Lean `String`s, that is by valid UTF-8 text; the
  Go builtin `len` on a string is its number of UTF-8 bytes
  (`String.utf8ByteSize`), not its number of characters (`String.length`).
* A Go `panic` is modelled by the `panic` constructor of `Outcome`, which keeps
  the message and the receiver as it stands when the panic is raised.
* The two library facilities the file relies on, `regexp` (leftmost-first
  matching with submatches) and `net/url.ParseRequestURI`, are modelled below,
  as far as the patterns and calls of the file need them.
-/

namespace Discordrpcgenerator

/-! ## Go `regexp`: a backtracking matcher with leftmost-first priorities -/

/-- Regular expressions, as far as the three patterns of the file need them. -/
inductive Regex where
  | lit (c : Char)
  | cls (p : Char → Bool)
  | bot
  | eot
  | cat (r s : Regex)
  | opt (r : Regex)
  | rep (r : Regex) (min max : Nat)
  | cap (n : Nat) (r : Regex)

/-- Submatches recorded so far: group number and the text the group matched,
the most recent first. -/
abbrev Caps := List (Nat × List Char)

/-- Continuation of a match: the text just consumed, the remaining input and the
submatches. -/
abbrev Cont := List Char → List Char → Caps → Option Caps

/-- Up to `extra` further greedy copies of the matcher `step`: the nested
optional copies `(x(x(x)?)?)?` that `regexp/syntax` expands the open part of a
counted repetition to, each preferring to match. -/
def runUpTo (step : Nat → List Char → Caps → Cont → Option Caps) :
    Nat → Nat → List Char → Caps → Cont → Option Caps
  | 0, _, s, caps, k => k [] s caps
  | e + 1, pos, s, caps, k =>
    (step pos s caps (fun m s1 caps1 =>
      runUpTo step e (pos + m.length) s1 caps1 (fun m2 s2 caps2 => k (m ++ m2) s2 caps2))).orElse
      (fun _ => k [] s caps)

/-- Greedy bounded repetition `x{min,min+extra}` of the matcher `step`: `min`
copies of `x` followed by up to `extra` optional ones. -/
def runRep (step : Nat → List Char → Caps → Cont → Option Caps) :
    Nat → Nat → Nat → List Char → Caps → Cont → Option Caps
  | 0, e, pos, s, caps, k => runUpTo step e pos s caps k
  | n + 1, e, pos, s, caps, k =>
    step pos s caps (fun m s1 caps1 =>
      runRep step n e (pos + m.length) s1 caps1 (fun m2 s2 caps2 => k (m ++ m2) s2 caps2))

/-- Match `r` at offset `pos` of the text, `s` being the input from `pos` on.
Alternatives are tried in priority order (an optional part is tried first, a
repetition takes as many copies as it can) and the first one whose continuation
succeeds wins, as in Go's leftmost-first semantics. -/
def Regex.run : Regex → Nat → List Char → Caps → Cont → Option Caps
  | .lit c, _, s, caps, k =>
    match s with
    | d :: t => if d = c then k [d] t caps else none
    | [] => none
  | .cls p, _, s, caps, k =>
    match s with
    | d :: t => if p d then k [d] t caps else none
    | [] => none
  | .bot, pos, s, caps, k => if pos = 0 then k [] s caps else none
  | .eot, _, s, caps, k => if s = [] then k [] s caps else none
  | .cat r q, pos, s, caps, k =>
    r.run pos s caps (fun m s1 caps1 =>
      q.run (pos + m.length) s1 caps1 (fun m2 s2 caps2 => k (m ++ m2) s2 caps2))
  | .opt r, pos, s, caps, k => (r.run pos s caps k).orElse (fun _ => k [] s caps)
  | .rep r min max, pos, s, caps, k => runRep r.run min (max - min) pos s caps k
  | .cap n r, pos, s, caps, k =>
    r.run pos s caps (fun m s1 caps1 => k m s1 ((n, m) :: caps1))

/-- Unanchored search: the match starting at the leftmost possible offset. -/
def Regex.findFrom (re : Regex) : Nat → List Char → Option Caps
  | pos, [] => re.run pos [] [] (fun _ _ caps => some caps)
  | pos, c :: t =>
    match re.run pos (c :: t) [] (fun _ _ caps => some caps) with
    | some caps => some caps
    | none => re.findFrom (pos + 1) t

/-- Text of submatch `n`, the empty string when the group took no part in the
match (as `FindStringSubmatch` reports it). -/
def Caps.group (caps : Caps) (n : Nat) : String :=
  match caps.lookup n with
  | some m => String.mk m
  | none => ""

/-- `re.MatchString(s)`. -/
def Regex.MatchString (re : Regex) (s : String) : Bool :=
  (re.findFrom 0 s.data).isSome

/-- `re.FindStringSubmatch(s)`, without the whole match: the submatches of the
leftmost match, `none` when there is no match. -/
def Regex.FindStringSubmatch (re : Regex) (s : String) : Option Caps :=
  re.findFrom 0 s.data

/-- Perl class `\d`: ASCII digits. -/
def isDigit (c : Char) : Bool := '0' ≤ c && c ≤ '9'

/-- Character class `[0-9A-Za-z]`. -/
def isAlnum (c : Char) : Bool :=
  ('0' ≤ c && c ≤ '9') || ('A' ≤ c && c ≤ 'Z') || ('a' ≤ c && c ≤ 'z')

/-- Perl class `\w`: `[0-9A-Za-z_]`. -/
def isWord (c : Char) : Bool := isAlnum c || c = '_'

/-- Pattern `^\d{17,19}$`. -/
def discordIdRegex : Regex :=
  .cat .bot (.cat (.rep (.cls isDigit) 17 19) .eot)

/-- Pattern `^[0-9A-Za-z]{22}$`. -/
def spotifyIdRegex : Regex :=
  .cat .bot (.cat (.rep (.cls isAlnum) 22 22) .eot)

/-- Pattern `<?(?:(a):)?(\w{2,32}):(\d{17,19})?>?` of `parseEmoji`. -/
def emojiRegex : Regex :=
  .cat (.opt (.lit '<'))
    (.cat (.opt (.cat (.cap 1 (.lit 'a')) (.lit ':')))
      (.cat (.cap 2 (.rep (.cls isWord) 2 32))
        (.cat (.lit ':')
          (.cat (.opt (.cap 3 (.rep (.cls isDigit) 17 19)))
            (.opt (.lit '>'))))))

/-- Checks if a string is a valid discord ID. -/
def isValidDiscordId (id : String) : Bool := discordIdRegex.MatchString id

/-- Checks if a string is a valid Spotify ID. -/
def isValidSpotifyId (id : String) : Bool := spotifyIdRegex.MatchString id

/-! ## Go `strings` -/

/-- `strings.HasPrefix(s, prefix)`. -/
def HasPrefix (s pre : String) : Bool := pre.data.isPrefixOf s.data

/-- `strings.ReplaceAll(s, old, new)` for a non-empty `old`, scanning from the
left and replacing non-overlapping occurrences; `skip` counts the characters of
the occurrence just replaced that are still to be passed over. -/
def replaceFrom (old new : List Char) : Nat → List Char → List Char
  | _, [] => []
  | skip + 1, _ :: t => replaceFrom old new skip t
  | 0, c :: t =>
    if old.isPrefixOf (c :: t) then new ++ replaceFrom old new (old.length - 1) t
    else c :: replaceFrom old new 0 t

/-- `strings.ReplaceAll(s, old, new)`; an empty `old` matches before every
character and at the end of the string. -/
def ReplaceAll (s old new : String) : String :=
  if old.data = [] then
    String.mk (new.data ++ (s.data.map (fun c => c :: new.data)).flatten)
  else String.mk (replaceFrom old.data new.data 0 s.data)

/-- `strings.Index(s, sub)`, as an offset in characters. -/
def indexOf (sub : List Char) : List Char → Option Nat
  | [] => if sub = [] then some 0 else none
  | c :: t =>
    if sub.isPrefixOf (c :: t) then some 0 else (indexOf sub t).map (· + 1)

/-- `strings.LastIndex(s, string(c))` for a single character `c`. -/
def lastIndexOf (c : Char) : List Char → Option Nat
  | [] => none
  | d :: t =>
    match lastIndexOf c t with
    | some i => some (i + 1)
    | none => if d = c then some 0 else none

/-! ## Go `net/url`: when `ParseRequestURI` returns no error

The functions below follow `net/url` (`parse` with `viaRequest = true`,
`getScheme`, `parseAuthority`, `parseHost`, `validOptionalPort`,
`validUserinfo`, `unescape`, `shouldEscape`) and, for a host in brackets,
`net/netip` (`ParseAddr`, `parseIPv6`, `parseIPv4Fields`), keeping of each only
whether it returns an error. `parseHost` is the one that admits `[` as the
first byte of the host only and requires an IPv6 address between the brackets.
All delimiters are ASCII, so offsets in characters and offsets in bytes cut the
text at the same places. -/

/-- The escaping modes `unescape` is called with while parsing. -/
inductive Encoding where
  | encodePath
  | encodeHost
  | encodeZone
  | encodeUserPassword
  deriving DecidableEq

/-- `stringContainsCTLByte`: some byte is below `' '` or is `0x7f`. -/
def stringContainsCTLByte (s : List Char) : Bool :=
  s.any (fun b => b.toNat < 32 || b.toNat = 127)

/-- `ishex`. -/
def ishex (c : Char) : Bool :=
  ('0' ≤ c && c ≤ '9') || ('a' ≤ c && c ≤ 'f') || ('A' ≤ c && c ≤ 'F')

/-- `unhex`. -/
def unhex (c : Char) : Nat :=
  if '0' ≤ c && c ≤ '9' then c.toNat - 48
  else if 'a' ≤ c && c ≤ 'f' then c.toNat - 97 + 10
  else if 'A' ≤ c && c ≤ 'F' then c.toNat - 65 + 10
  else 0

/-- `shouldEscape(c, encodeHost)`, on the byte value `c`: everything must be
escaped in a host except letters, digits, the sub-delimiters the package lets
through, and the unreserved marks. -/
def shouldEscapeHost (c : Nat) : Bool :=
  if (97 ≤ c && c ≤ 122) || (65 ≤ c && c ≤ 90) || (48 ≤ c && c ≤ 57) then false
  else if c ∈ ("!$&'()*+,;=:[]<>\"".data.map Char.toNat) then false
  else if c ∈ ("-_.~".data.map Char.toNat) then false
  else true

/-- `unescape(s, mode)` returns no error. -/
def unescapeOk (mode : Encoding) : List Char → Bool
  | [] => true
  | c :: t =>
    if c = '%' then
      match t with
      | a :: b :: t2 =>
        if !(ishex a && ishex b) then false
        else if mode = .encodeHost && unhex a < 8 && !(a = '2' && b = '5') then false
        else if mode = .encodeZone && !(a = '2' && b = '5') && unhex a * 16 + unhex b ≠ 32
            && shouldEscapeHost (unhex a * 16 + unhex b) then false
        else unescapeOk mode t2
      | _ => false
    else if c = '+' then unescapeOk mode t
    else if (mode = .encodeHost || mode = .encodeZone) && c.toNat < 128
        && shouldEscapeHost c.toNat then false
    else unescapeOk mode t

/-- `getScheme` from offset `i` on, `s` being the text from `i`: the scheme and
the rest after its colon, or `none` for the error "missing protocol scheme". -/
def getSchemeFrom (rawURL : List Char) : Nat → List Char → Option (List Char × List Char)
  | _, [] => some ([], rawURL)
  | i, c :: t =>
    if ('a' ≤ c && c ≤ 'z') || ('A' ≤ c && c ≤ 'Z') then getSchemeFrom rawURL (i + 1) t
    else if ('0' ≤ c && c ≤ '9') || c = '+' || c = '-' || c = '.' then
      if i = 0 then some ([], rawURL) else getSchemeFrom rawURL (i + 1) t
    else if c = ':' then
      if i = 0 then none else some (rawURL.take i, t)
    else some ([], rawURL)

/-- `getScheme`. -/
def getScheme (rawURL : List Char) : Option (List Char × List Char) :=
  getSchemeFrom rawURL 0 rawURL

/-- `validOptionalPort`. -/
def validOptionalPort (port : List Char) : Bool :=
  match port with
  | [] => true
  | c :: t => c = ':' && t.all (fun b => '0' ≤ b && b ≤ '9')

/-- `validUserinfo`. -/
def validUserinfo (s : List Char) : Bool :=
  s.all (fun r => ('A' ≤ r && r ≤ 'Z') || ('a' ≤ r && r ≤ 'z') || ('0' ≤ r && r ≤ '9')
    || r ∈ "-._:~!$&'()*+,;=%@".data)

/-- `unescape(s, mode)` with the text it returns, `none` for an error; used for
the host and zone modes, whose result is parsed further. A byte written as
`%XX` is kept as the character with that code, which is exact below 0x80. -/
def unescape (mode : Encoding) : List Char → Option (List Char)
  | [] => some []
  | c :: t =>
    if c = '%' then
      match t with
      | a :: b :: t2 =>
        if !(ishex a && ishex b) then none
        else if mode = .encodeHost && unhex a < 8 && !(a = '2' && b = '5') then none
        else if mode = .encodeZone && !(a = '2' && b = '5') && unhex a * 16 + unhex b ≠ 32
            && shouldEscapeHost (unhex a * 16 + unhex b) then none
        else (unescape mode t2).map (fun r => Char.ofNat (unhex a * 16 + unhex b) :: r)
      | _ => none
    else if c = '+' then (unescape mode t).map (fun r => c :: r)
    else if (mode = .encodeHost || mode = .encodeZone) && c.toNat < 128
        && shouldEscapeHost c.toNat then none
    else (unescape mode t).map (fun r => c :: r)

/-- `netip.parseIPv4Fields` returns no error, on the text from the byte after
`prev` on: `val` and `digLen` are the value and the number of digits of the
octet being read, `pos` the number of octets already stored. -/
def parseIPv4FieldsFrom (prev : Option Char) (val pos digLen : Nat) : List Char → Bool
  | [] => !(pos < 3)
  | c :: t =>
    if '0' ≤ c && c ≤ '9' then
      if digLen = 1 && val = 0 then false
      else if val * 10 + (c.toNat - 48) > 255 then false
      else parseIPv4FieldsFrom (some c) (val * 10 + (c.toNat - 48)) pos (digLen + 1) t
    else if c = '.' then
      if prev = none || t = [] || prev = some '.' then false
      else if pos = 3 then false
      else parseIPv4FieldsFrom (some c) 0 (pos + 1) 0 t
    else false

/-- `netip.parseIPv4Fields` returns no error. -/
def parseIPv4FieldsOk (s : List Char) : Bool := parseIPv4FieldsFrom none 0 0 0 s

/-- The loop of `netip.parseIPv6` over the colon-separated groups: `i` bytes of
the address are filled, `ellipsis` tells whether `::` was seen, `s` is the text
still to read. Returns the three at the exit of the loop, `none` for an error.
Every round fills at least two bytes, so 8 rounds are enough. -/
def parseIPv6Groups : Nat → Nat → Bool → List Char → Option (Nat × Bool × List Char)
  | 0, i, ellipsis, s => some (i, ellipsis, s)
  | fuel + 1, i, ellipsis, s =>
    if !(i < 16) then some (i, ellipsis, s)
    else if (s.takeWhile ishex).length > 4 then none
    else if (s.takeWhile ishex).length = 0 then none
    else if (s.dropWhile ishex).head? = some '.' then
      if !ellipsis && i ≠ 12 then none
      else if i + 4 > 16 then none
      else if parseIPv4FieldsOk s then some (i + 4, ellipsis, []) else none
    else
      match s.dropWhile ishex with
      | [] => some (i + 2, ellipsis, [])
      | c :: t =>
        if c ≠ ':' then none
        else
          match t with
          | [] => none
          | d :: t2 =>
            if d = ':' then
              if ellipsis then none
              else if t2 = [] then some (i + 2, true, [])
              else parseIPv6Groups fuel (i + 2) true t2
            else parseIPv6Groups fuel (i + 2) ellipsis (d :: t2)

/-- `netip.parseIPv6` returns no error. -/
def parseIPv6Ok (s : List Char) : Bool :=
  -- the zone is split off first; an explicit zone must not be empty
  if s.contains '%' && (s.dropWhile (· ≠ '%')).drop 1 = [] then false
  else
    let addr := s.takeWhile (· ≠ '%')
    let ellipsis := "::".data.isPrefixOf addr
    let rest := if ellipsis then addr.drop 2 else addr
    if ellipsis && rest = [] then true
    else
      match parseIPv6Groups 8 0 ellipsis rest with
      | none => false
      | some (i, ellipsis2, left) =>
        if left ≠ [] then false
        else if i < 16 then ellipsis2
        else !ellipsis2

/-- `netip.ParseAddr(s)` returns an address that is not an IPv4 address: the
first of `.`, `:` and `%` in `s` decides how `s` is parsed, and only a colon
leads to an IPv6 address. -/
def parseAddrIs6 (s : List Char) : Bool :=
  match s.find? (fun c => c = '.' || c = ':' || c = '%') with
  | some c => c = ':' && parseIPv6Ok s
  | none => false

/-- `parseHost` returns no error. A `[` may only be the first byte of the
host; then the host is an IP literal `[address]` with an optional port, and the
unescaped text between the brackets has to be an IPv6 address. -/
def parseHostOk (host : List Char) : Bool :=
  match lastIndexOf '[' host with
  | some (_ + 1) => false
  | some 0 =>
    match lastIndexOf ']' host with
    | none => false
    | some i =>
      if !validOptionalPort (host.drop (i + 1)) then false
      else if !unescapeOk .encodeHost (host.drop (i + 1)) then false
      else
        let hostname := (host.take i).drop 1
        let unescaped :=
          match indexOf "%25".data hostname with
          | some zone =>
            match unescape .encodeHost (hostname.take zone),
              unescape .encodeZone (hostname.drop zone) with
            | some hostPart, some zonePart => some (hostPart ++ zonePart)
            | _, _ => none
          | none => unescape .encodeHost hostname
        match unescaped with
        | none => false
        | some h => parseAddrIs6 h
  | none =>
    match lastIndexOf ':' host with
    | some i => validOptionalPort (host.drop i) && unescapeOk .encodeHost host
    | none => unescapeOk .encodeHost host

/-- `parseAuthority` returns no error. -/
def parseAuthorityOk (authority : List Char) : Bool :=
  match lastIndexOf '@' authority with
  | none => parseHostOk authority
  | some i =>
    if !parseHostOk (authority.drop (i + 1)) then false
    else
      let userinfo := authority.take i
      if !validUserinfo userinfo then false
      else
        match indexOf ":".data userinfo with
        | none => unescapeOk .encodeUserPassword userinfo
        | some j =>
          unescapeOk .encodeUserPassword (userinfo.take j)
            && unescapeOk .encodeUserPassword (userinfo.drop (j + 1))

/-- The query is split off: a single trailing `?` is dropped, otherwise the text
is cut at its first `?`. -/
def dropQuery (rest : List Char) : List Char :=
  if rest.getLast? = some '?' && rest.count '?' = 1 then rest.dropLast
  else rest.takeWhile (· ≠ '?')

/-- `parse(rawURL, true)` returns no error. -/
def parseOk (rawURL : List Char) : Bool :=
  if stringContainsCTLByte rawURL then false
  else if rawURL = [] then false
  else if rawURL = ['*'] then true
  else
    match getScheme rawURL with
    | none => false
    | some (scheme, rest0) =>
      let rest := dropQuery rest0
      if !"/".data.isPrefixOf rest then
        -- with a scheme the rest is opaque; without one: "invalid URI for request"
        scheme ≠ []
      else if scheme ≠ [] && "//".data.isPrefixOf rest then
        let authority := rest.drop 2
        match indexOf "/".data authority with
        | some i => parseAuthorityOk (authority.take i) && unescapeOk .encodePath (authority.drop i)
        | none => parseAuthorityOk authority && unescapeOk .encodePath []
      else unescapeOk .encodePath rest

/-- Checks if a string is a valid URL: `url.ParseRequestURI(uri)` returns no
error. -/
def isValidURL (uri : String) : Bool := parseOk uri.data

/-! ## The records of the client library -/

/-- Modelled from the spec: the activity kinds of `discordgo.ActivityType`
(game, streaming, listening, watching, custom, competing), whose declaration is
in the client library; the zero value is the first. -/
inductive ActivityType where
  | Game
  | Streaming
  | Listening
  | Watching
  | Custom
  | Competing
  deriving DecidableEq

/-- Modelled from the spec: `discordgo.SimpleEmoji`, the emoji reference that
`parseEmoji` fills (declared in the client library). -/
structure SimpleEmoji where
  Name : String := ""
  ID : String := ""
  Animated : Bool := false
  deriving DecidableEq

/-- Modelled from the spec: `discordgo.TimeStamps`, start and end instants in
Unix milliseconds (declared in the client library). -/
structure TimeStamps where
  EndTimestamp : Int := 0
  StartTimestamp : Int := 0
  deriving DecidableEq

/-- Modelled from the spec: `discordgo.Assets`, the large and small image
references with their texts (declared in the client library). -/
structure Assets where
  LargeImageID : String := ""
  SmallImageID : String := ""
  LargeText : String := ""
  SmallText : String := ""
  deriving DecidableEq

/-- Modelled from the spec: `discordgo.Party`, a party id with its current and
maximal size (declared in the client library). -/
structure Party where
  ID : String := ""
  Size : List Int := []
  deriving DecidableEq

/-- Modelled from the spec: the metadata bag of an activity, holding button
URLs and the album, context and artist identifiers (declared in the client
library). -/
structure Metadata where
  ButtonUrls : List String := []
  AlbumId : String := ""
  ContextUri : String := ""
  ArtistIds : List String := []
  deriving DecidableEq

/-- Modelled from the spec: `discordgo.Activity`, with the fields the builders
read or assign (declared in the client library); every field starts at its Go
zero value. -/
structure Activity where
  ID : String := ""
  Name : String := ""
  Type_ : ActivityType := .Game
  URL : String := ""
  ApplicationID : String := ""
  State : String := ""
  Details : String := ""
  TimeStamps : TimeStamps := {}
  Emoji : SimpleEmoji := {}
  Party : Party := {}
  Assets : Assets := {}
  Flags : Int := 0
  SyncId : String := ""
  Buttons : List String := []
  Metadata : Metadata := {}
  deriving DecidableEq

/-- Modelled from the spec: `discordgo.UpdateStatusData`, the presence record
(status, AFK flag, idle-since instant, ordered activities), declared in the
client library. -/
structure UpdateStatusData where
  IdleSince : Int := 0
  Activities : List Activity := []
  AFK : Bool := false
  Status : String := ""
  deriving DecidableEq

/-- Modelled from the spec: the logged-in user of a session; only its id is
read. -/
structure User where
  ID : String
  deriving DecidableEq

/-- Modelled from the spec: one resolved external asset, as the asset call of
the session returns it. -/
structure ExternalAsset where
  ExternalAssetPath : String
  deriving DecidableEq

/-- Modelled from the spec: the state cache of a session, reduced to the
current user (`none` for nil), the identity the constructors require. -/
structure State where
  User : Option User

/-- Modelled from the spec: `discordgo.Session`, reduced to what the file uses:
its state cache and the asset-resolution call `ExternalAssets`, an external
collaborator that answers with the resolved assets or with an error. -/
structure Session where
  State : State
  ExternalAssets : String → List String → Except String (List ExternalAsset)

/-- A `time.Time` instant: seconds since the Unix epoch and the nanoseconds
within the second. -/
structure Time where
  unixSec : Int
  nsec : Nat

/-- Wrap-around of a Go `int64`: the value modulo 2^64 in the signed range. -/
def wrapInt64 (x : Int) : Int := (x + 2 ^ 63) % 2 ^ 64 - 2 ^ 63

/-- `time.Time.UnixMilli`: `t.unixSec()*1e3 + int64(t.nsec())/1e6` in `int64`
arithmetic. -/
def Time.UnixMilli (t : Time) : Int := wrapInt64 (t.unixSec * 1000 + t.nsec / 1000000)

/-- Result of a method call on a builder: the receiver after a normal return,
or the panic message together with the receiver as the panic leaves it. -/
inductive Outcome (σ : Type) where
  | ok (s : σ)
  | panic (msg : String) (s : σ)

/-- The receiver after the call, whether it returned or panicked. -/
def Outcome.state {σ : Type} : Outcome σ → σ
  | .ok s => s
  | .panic _ s => s

/-- The call returned normally. -/
def Outcome.succeeded {σ : Type} : Outcome σ → Bool
  | .ok _ => true
  | .panic _ _ => false

/-- Carry an outcome on a part of a record over to the whole record. -/
def Outcome.lift {σ τ : Type} (f : σ → τ) : Outcome σ → Outcome τ
  | .ok s => .ok (f s)
  | .panic msg s => .panic msg (f s)

/-- The Go builtin `len` on a string: its length in bytes. -/
def len (s : String) : Nat := s.utf8ByteSize

/-! ## Emoji and image resolution -/

/-- Parses an emoji from a string. -/
def parseEmoji (text : String) : SimpleEmoji :=
  if isValidDiscordId text then { ID := text }
  else
    match emojiRegex.FindStringSubmatch text with
    | some m => { Name := m.group 2, ID := m.group 3, Animated := m.group 1 == "a" }
    | none => { Name := text }

/-- The CDN origins `parseImage` knows, in the order it tries them. -/
def discordCdns : List String :=
  ["https://cdn.discordapp.com/", "http://cdn.discordapp.com/",
   "https://media.discordapp.net/", "http://media.discordapp.net/"]

/-- Parses an image from a string. -/
def parseImage (image : String) : String :=
  if isValidDiscordId image then image
  else if HasPrefix image "mp:" || HasPrefix image "youtube:" || HasPrefix image "spotify:"
      || HasPrefix image "twitch:" then image
  else if HasPrefix image "external/" then "mp:" ++ image
  else if isValidURL image then
    match discordCdns.find? (fun cdn => HasPrefix image cdn) with
    | some cdn => ReplaceAll image cdn "mp:"
    | none => image
  else image

/-! ## Presence -/

/-- Holds data for a Discord presence update (opcode 3). -/
structure presence where
  data : UpdateStatusData
  deriving DecidableEq

/-- Creates a new presence instance. -/
def NewPresence : presence := { data := { AFK := false, IdleSince := 0 } }

/-- Returns the presence data. -/
def presence.Data (p : presence) : UpdateStatusData := p.data

/-- Sets the status of the presence. -/
def presence.SetStatus (p : presence) (status : String) : presence :=
  { p with data.Status := status }

/-! ## Custom status -/

/-- Holds data for a custom status. -/
structure customStatus where
  activity : Activity
  deriving DecidableEq

/-- Creates a new custom status. -/
def NewCustomStatus (client : Session) : Except String customStatus :=
  match client.State.User with
  | none => .error "Client is not logged in"
  | some _ => .ok { activity := { Name := "Custom Status", Type_ := .Custom } }

/-- Returns the customStatus data. -/
def customStatus.data (c : customStatus) : Except String Activity := .ok c.activity

/-- Sets the state of the customStatus. -/
def customStatus.SetState (c : customStatus) (state : String) : Outcome customStatus :=
  if len state > 128 then .panic "State must be 128 characters or less" c
  else .ok { c with activity.State := state }

/-- Sets the emoji of the customStatus. -/
def customStatus.SetEmoji (c : customStatus) (emoji : String) : Outcome customStatus :=
  .ok { c with activity.Emoji := parseEmoji emoji }

/-! ## Fields shared by rich presence and Spotify rich presence -/

/-- Holds common activity data for richPresence and spotifyRichPresence. -/
structure baseActivity where
  activity : Activity := {}
  deriving DecidableEq

/-- Returns the baseActivity data. -/
def baseActivity.data (b : baseActivity) : Except String Activity :=
  if b.activity.Name = "" then .error "Name is required" else .ok b.activity

/-- Sets the application ID of the baseActivity. -/
def baseActivity.SetApplicationID (b : baseActivity) (id : String) : Outcome baseActivity :=
  if !isValidDiscordId id then .panic "Invalid application id" b
  else .ok { b with activity.ApplicationID := id }

/-- Sets the state of the baseActivity. -/
def baseActivity.SetState (b : baseActivity) (state : String) : Outcome baseActivity :=
  if len state > 128 then .panic "State must be 128 characters or less" b
  else .ok { b with activity.State := state }

/-- Sets the details of the baseActivity. -/
def baseActivity.SetDetails (b : baseActivity) (details : String) : Outcome baseActivity :=
  if len details > 128 then .panic "Details must be 128 characters or less" b
  else .ok { b with activity.Details := details }

/-- Sets the large image of the baseActivity. -/
def baseActivity.SetLargeImage (b : baseActivity) (image : String) : Outcome baseActivity :=
  .ok { b with activity.Assets.LargeImageID := parseImage image }

/-- Sets the large text of the baseActivity. -/
def baseActivity.SetLargeText (b : baseActivity) (text : String) : Outcome baseActivity :=
  if len text > 128 then .panic "Large text must be 128 characters or less" b
  else .ok { b with activity.Assets.LargeText := text }

/-- Sets the small image of the baseActivity. -/
def baseActivity.SetSmallImage (b : baseActivity) (image : String) : Outcome baseActivity :=
  .ok { b with activity.Assets.SmallImageID := parseImage image }

/-- Sets the small text of the baseActivity. -/
def baseActivity.SetSmallText (b : baseActivity) (text : String) : Outcome baseActivity :=
  if len text > 128 then .panic "Small text must be 128 characters or less" b
  else .ok { b with activity.Assets.SmallText := text }

/-- Sets the start timestamp of the baseActivity. -/
def baseActivity.SetStartTimestamp (b : baseActivity) (timestamp : Time) : Outcome baseActivity :=
  .ok { b with activity.TimeStamps.StartTimestamp := timestamp.UnixMilli }

/-- Sets the end timestamp of the baseActivity. -/
def baseActivity.SetEndTimestamp (b : baseActivity) (timestamp : Time) : Outcome baseActivity :=
  .ok { b with activity.TimeStamps.EndTimestamp := timestamp.UnixMilli }

/-! ## Rich presence -/

/-- Holds data for a rich presence; `baseActivity` is the embedded struct. -/
structure richPresence where
  baseActivity : baseActivity := {}
  deriving DecidableEq

/-- The activity record of a rich presence, reached through the embedded
struct. -/
def richPresence.activity (r : richPresence) : Activity := r.baseActivity.activity

/-- Creates a new richPresence instance. -/
def NewRichPresence (client : Session) : Except String richPresence :=
  match client.State.User with
  | none => .error "Client is not logged in"
  | some _ => .ok {}

/-- Promoted method `data` of the embedded baseActivity. -/
def richPresence.data (r : richPresence) : Except String Activity := r.baseActivity.data

/-- Sets the name of the richPresence. -/
def richPresence.SetName (r : richPresence) (name : String) : Outcome richPresence :=
  if len name > 128 then .panic "Name must be 128 characters or less" r
  else .ok { r with baseActivity.activity.Name := name }

/-- Sets the type of the richPresence. -/
def richPresence.SetType (r : richPresence) (activityType : ActivityType) :
    Outcome richPresence :=
  .ok { r with baseActivity.activity.Type_ := activityType }

/-- Sets the URL of the richPresence. -/
def richPresence.SetURL (r : richPresence) (url : String) : Outcome richPresence :=
  if !isValidURL url then .panic "Invalid URL" r
  else .ok { r with baseActivity.activity.URL := url }

/-- Sets the party of the richPresence. -/
def richPresence.SetParty (r : richPresence) (id : String) (currentMembers maxMembers : Int) :
    Outcome richPresence :=
  .ok { r with baseActivity.activity.Party := { ID := id, Size := [currentMembers, maxMembers] } }

/-- Adds a button to the richPresence. -/
def richPresence.AddButton (r : richPresence) (name url : String) : Outcome richPresence :=
  if r.activity.Buttons.length ≥ 2 then .panic "Rich presence can only have 2 buttons" r
  else if name = "" || url = "" then .panic "Button must have name and url" r
  else if len name > 31 then .panic "Button name must be less than 32 characters" r
  else if !isValidURL url then .panic "Invalid button URL" r
  else
    let r1 : richPresence :=
      { r with baseActivity.activity.Buttons := r.activity.Buttons ++ [name] }
    .ok { r1 with
      baseActivity.activity.Metadata.ButtonUrls := r1.activity.Metadata.ButtonUrls ++ [url] }

/-- A promoted method of the embedded baseActivity, called on a richPresence. -/
def richPresence.promoted (r : richPresence)
    (f : Discordrpcgenerator.baseActivity → Outcome Discordrpcgenerator.baseActivity) :
    Outcome richPresence :=
  (f r.baseActivity).lift (fun b => { r with baseActivity := b })

/-! ## Spotify rich presence -/

/-- Holds data for a Spotify rich presence; `baseActivity` is the embedded
struct. -/
structure spotifyRichPresence where
  baseActivity : baseActivity := {}
  deriving DecidableEq

/-- The activity record of a Spotify rich presence, reached through the
embedded struct. -/
def spotifyRichPresence.activity (s : spotifyRichPresence) : Activity := s.baseActivity.activity

/-- Creates a new spotifyRichPresence instance. -/
def NewSpotifyRichPresence (client : Session) : Except String spotifyRichPresence :=
  match client.State.User with
  | none => .error "Client is not logged in"
  | some user =>
    .ok { baseActivity := { activity :=
      { ID := "spotify:1", Name := "Spotify", Type_ := .Listening, Flags := 48,
        Party := { ID := "spotify:" ++ user.ID } } } }

/-- Promoted method `data` of the embedded baseActivity. -/
def spotifyRichPresence.data (s : spotifyRichPresence) : Except String Activity :=
  s.baseActivity.data

/-- Sets the song ID of the spotifyRichPresence. -/
def spotifyRichPresence.SetSongId (s : spotifyRichPresence) (id : String) :
    Outcome spotifyRichPresence :=
  if !isValidSpotifyId id then .panic "Invalid song id" s
  else .ok { s with baseActivity.activity.SyncId := id }

/-- Sets the album ID of the spotifyRichPresence. -/
def spotifyRichPresence.SetAlbumId (s : spotifyRichPresence) (id : String) :
    Outcome spotifyRichPresence :=
  if !isValidSpotifyId id then .panic "Invalid album id" s
  else
    let s1 : spotifyRichPresence := { s with baseActivity.activity.Metadata.AlbumId := id }
    .ok { s1 with baseActivity.activity.Metadata.ContextUri := "spotify:album:" ++ id }

/-- Adds an artist ID to the spotifyRichPresence. -/
def spotifyRichPresence.AddArtistId (s : spotifyRichPresence) (id : String) :
    Outcome spotifyRichPresence :=
  if !isValidSpotifyId id then .panic "Invalid artist id" s
  else .ok { s with
    baseActivity.activity.Metadata.ArtistIds := s.activity.Metadata.ArtistIds ++ [id] }

/-- A promoted method of the embedded baseActivity, called on a
spotifyRichPresence. -/
def spotifyRichPresence.promoted (s : spotifyRichPresence)
    (f : Discordrpcgenerator.baseActivity → Outcome Discordrpcgenerator.baseActivity) :
    Outcome spotifyRichPresence :=
  (f s.baseActivity).lift (fun b => { s with baseActivity := b })

/-! ## Activities of a presence, external assets -/

/-- The activity interface: the three builders that implement `data`. -/
inductive activity where
  | custom (c : customStatus)
  | rich (r : richPresence)
  | spotify (s : spotifyRichPresence)

/-- Dynamic dispatch of `data` on the activity interface. -/
def activity.data : activity → Except String Activity
  | .custom c => c.data
  | .rich r => r.data
  | .spotify s => s.data

/-- Adds an activity to the presence: `activity.data()` is evaluated first, and
a panic in it leaves the presence as it was. -/
def presence.AddActivity (p : presence) (a : activity) : Outcome presence :=
  match a.data with
  | .error msg => .panic msg p
  | .ok d => .ok { p with data.Activities := p.data.Activities ++ [d] }

/-- Asks the session to translate an image link into an asset path. -/
def ImageLinkToAsset (client : Session) (applicationId imageLink : String) :
    Except String String :=
  match client.State.User with
  | none => .error "Client is not logged in"
  | some _ =>
    if !isValidDiscordId applicationId then .error "Invalid application id"
    else if !isValidURL imageLink then .error "Invalid image URL"
    else
      match client.ExternalAssets applicationId [imageLink] with
      | .error err => .error ("Error getting external assets: " ++ err)
      | .ok assets =>
        match assets with
        | a :: _ => .ok a.ExternalAssetPath
        | [] => .error "runtime error: index out of range [0] with length 0"

/-! ## Sequences of calls on a rich presence -/

/-- A method call on a richPresence, with its arguments: the methods promoted
from the embedded baseActivity and the methods of richPresence itself. -/
inductive richPresence.Call where
  | SetApplicationID (id : String)
  | SetState (state : String)
  | SetDetails (details : String)
  | SetLargeImage (image : String)
  | SetLargeText (text : String)
  | SetSmallImage (image : String)
  | SetSmallText (text : String)
  | SetStartTimestamp (timestamp : Time)
  | SetEndTimestamp (timestamp : Time)
  | SetName (name : String)
  | SetType (activityType : ActivityType)
  | SetURL (url : String)
  | SetParty (id : String) (currentMembers maxMembers : Int)
  | AddButton (name url : String)

/-- Perform one call on a richPresence. -/
def richPresence.Call.run : richPresence.Call → richPresence → Outcome richPresence
  | .SetApplicationID id, r => r.promoted (fun b => b.SetApplicationID id)
  | .SetState state, r => r.promoted (fun b => b.SetState state)
  | .SetDetails details, r => r.promoted (fun b => b.SetDetails details)
  | .SetLargeImage image, r => r.promoted (fun b => b.SetLargeImage image)
  | .SetLargeText text, r => r.promoted (fun b => b.SetLargeText text)
  | .SetSmallImage image, r => r.promoted (fun b => b.SetSmallImage image)
  | .SetSmallText text, r => r.promoted (fun b => b.SetSmallText text)
  | .SetStartTimestamp timestamp, r => r.promoted (fun b => b.SetStartTimestamp timestamp)
  | .SetEndTimestamp timestamp, r => r.promoted (fun b => b.SetEndTimestamp timestamp)
  | .SetName name, r => r.SetName name
  | .SetType activityType, r => r.SetType activityType
  | .SetURL url, r => r.SetURL url
  | .SetParty id currentMembers maxMembers, r => r.SetParty id currentMembers maxMembers
  | .AddButton name url, r => r.AddButton name url

/-- The call is `SetName`. -/
def richPresence.Call.isSetName : richPresence.Call → Bool
  | .SetName _ => true
  | _ => false

/-- The call is `SetApplicationID`. -/
def richPresence.Call.isSetApplicationID : richPresence.Call → Bool
  | .SetApplicationID _ => true
  | _ => false

/-- Perform a sequence of calls in order; a call that panics is recovered from
and the sequence goes on with the receiver as the panic left it. -/
def richPresence.runCalls (calls : List richPresence.Call) (r : richPresence) : richPresence :=
  calls.foldl (fun r c => (c.run r).state) r

/-- The label and URL sequences of a rich presence are equally long, with at
most two entries. -/
def richPresence.ButtonsOk (r : richPresence) : Prop :=
  r.activity.Buttons.length = r.activity.Metadata.ButtonUrls.length ∧
    r.activity.Buttons.length ≤ 2

/-! ## Sequences of calls on a Spotify rich presence and on a presence -/

/-- A method call on a spotifyRichPresence, with its arguments: the methods
promoted from the embedded baseActivity and the methods of spotifyRichPresence
itself. -/
inductive spotifyRichPresence.Call where
  | SetApplicationID (id : String)
  | SetState (state : String)
  | SetDetails (details : String)
  | SetLargeImage (image : String)
  | SetLargeText (text : String)
  | SetSmallImage (image : String)
  | SetSmallText (text : String)
  | SetStartTimestamp (timestamp : Time)
  | SetEndTimestamp (timestamp : Time)
  | SetSongId (id : String)
  | SetAlbumId (id : String)
  | AddArtistId (id : String)

/-- Perform one call on a spotifyRichPresence. -/
def spotifyRichPresence.Call.run :
    spotifyRichPresence.Call → spotifyRichPresence → Outcome spotifyRichPresence
  | .SetApplicationID id, s => s.promoted (fun b => b.SetApplicationID id)
  | .SetState state, s => s.promoted (fun b => b.SetState state)
  | .SetDetails details, s => s.promoted (fun b => b.SetDetails details)
  | .SetLargeImage image, s => s.promoted (fun b => b.SetLargeImage image)
  | .SetLargeText text, s => s.promoted (fun b => b.SetLargeText text)
  | .SetSmallImage image, s => s.promoted (fun b => b.SetSmallImage image)
  | .SetSmallText text, s => s.promoted (fun b => b.SetSmallText text)
  | .SetStartTimestamp timestamp, s => s.promoted (fun b => b.SetStartTimestamp timestamp)
  | .SetEndTimestamp timestamp, s => s.promoted (fun b => b.SetEndTimestamp timestamp)
  | .SetSongId id, s => s.SetSongId id
  | .SetAlbumId id, s => s.SetAlbumId id
  | .AddArtistId id, s => s.AddArtistId id

/-- Perform a sequence of calls in order; a call that panics is recovered from
and the sequence goes on with the receiver as the panic left it. -/
def spotifyRichPresence.runCalls (calls : List spotifyRichPresence.Call)
    (s : spotifyRichPresence) : spotifyRichPresence :=
  calls.foldl (fun s c => (c.run s).state) s

/-- The ids passed to the `AddArtistId` calls of a sequence that succeed, in
call order. -/
def spotifyRichPresence.addedArtistIds : List spotifyRichPresence.Call → List String
  | [] => []
  | .AddArtistId id :: calls =>
    if isValidSpotifyId id then id :: addedArtistIds calls else addedArtistIds calls
  | _ :: calls => addedArtistIds calls

/-- Add a sequence of activities to a presence in order; a call that panics is
recovered from and the sequence goes on with the presence as the panic left
it. -/
def presence.addAll (acts : List activity) (p : presence) : presence :=
  acts.foldl (fun p a => (p.AddActivity a).state) p

/-! ## Inputs used in the examples -/

/-- The string of 65 letters `é`: 65 characters, 130 bytes. -/
def sixtyFiveAccents : String := String.mk (List.replicate 65 'é')

/-- The string of 16 letters `é`: 16 characters, 32 bytes. -/
def sixteenAccents : String := String.mk (List.replicate 16 'é')

/-- An asset collaborator that resolves every link to the same path. -/
def exampleAssets : String → List String → Except String (List ExternalAsset) :=
  fun _ links => .ok (links.map (fun _ => { ExternalAssetPath := "mp:external/x" }))

/-- An asset collaborator that always answers with an error. -/
def failingAssets : String → List String → Except String (List ExternalAsset) :=
  fun _ _ => .error "HTTP 401 Unauthorized"

/-- A session whose user is known. -/
def loggedIn : Session :=
  { State := { User := some { ID := "123456789012345678" } }, ExternalAssets := exampleAssets }

/-- A session whose user is unknown. -/
def loggedOut : Session := { State := { User := none }, ExternalAssets := exampleAssets }

/-- Another session whose user is unknown, with a failing asset collaborator. -/
def loggedOutFailing : Session := { State := { User := none }, ExternalAssets := failingAssets }

/-! ## Shapes of the emoji pattern's submatches -/

/-- A name of the emoji pattern: 2 to 32 word characters. -/
def IsEmojiName (name : List Char) : Prop :=
  2 ≤ name.length ∧ name.length ≤ 32 ∧ ∀ c ∈ name, isWord c = true

/-- An id of the emoji pattern: 17 to 19 digits. -/
def IsEmojiId (id : List Char) : Prop :=
  17 ≤ id.length ∧ id.length ≤ 19 ∧ ∀ c ∈ id, isDigit c = true

/-- The submatches of a match of the emoji pattern: a name as submatch 2, maybe
an id as submatch 3 before it, maybe `a` as submatch 1 after it. -/
def IsEmojiCaps (out : Caps) : Prop :=
  ∃ name pre, IsEmojiName name ∧ (pre = [] ∨ pre = [(1, ['a'])]) ∧
    (out = (2, name) :: pre ∨ ∃ id, IsEmojiId id ∧ out = (3, id) :: (2, name) :: pre)

/-- A freshly constructed Spotify rich presence of the session `loggedIn`. -/
def freshSpotify : spotifyRichPresence :=
  { baseActivity := { activity :=
    { ID := "spotify:1", Name := "Spotify", Type_ := .Listening, Flags := 48,
      Party := { ID := "spotify:" ++ "123456789012345678" } } } }

/-! ## The matcher on the patterns of the file -/

/-- A literal on a non-empty input. -/
theorem run_lit_cons (a : Char) (pos : Nat) (d : Char) (t : List Char) (caps : Caps)
    (k : Cont) :
    Regex.run (.lit a) pos (d :: t) caps k = if d = a then k [d] t caps else none := rfl

/-- A literal at the end of the input. -/
theorem run_lit_nil (a : Char) (pos : Nat) (caps : Caps) (k : Cont) :
    Regex.run (.lit a) pos [] caps k = none := rfl

/-- A character class on a non-empty input. -/
theorem run_cls_cons (p : Char → Bool) (pos : Nat) (d : Char) (t : List Char) (caps : Caps)
    (k : Cont) :
    Regex.run (.cls p) pos (d :: t) caps k = if p d then k [d] t caps else none := rfl

/-- A character class at the end of the input. -/
theorem run_cls_nil (p : Char → Bool) (pos : Nat) (caps : Caps) (k : Cont) :
    Regex.run (.cls p) pos [] caps k = none := rfl

/-- The assertion `^`. -/
theorem run_bot (pos : Nat) (s : List Char) (caps : Caps) (k : Cont) :
    Regex.run .bot pos s caps k = if pos = 0 then k [] s caps else none := rfl

/-- The assertion `$`. -/
theorem run_eot (pos : Nat) (s : List Char) (caps : Caps) (k : Cont) :
    Regex.run .eot pos s caps k = if s = [] then k [] s caps else none := rfl

/-- A concatenation. -/
theorem run_cat (r q : Regex) (pos : Nat) (s : List Char) (caps : Caps) (k : Cont) :
    Regex.run (.cat r q) pos s caps k =
      r.run pos s caps (fun m s1 caps1 =>
        q.run (pos + m.length) s1 caps1 (fun m2 s2 caps2 => k (m ++ m2) s2 caps2)) := rfl

/-- An optional part: first with it, then without. -/
theorem run_opt (r : Regex) (pos : Nat) (s : List Char) (caps : Caps) (k : Cont) :
    Regex.run (.opt r) pos s caps k = (r.run pos s caps k).orElse (fun _ => k [] s caps) := rfl

/-- A counted repetition. -/
theorem run_rep (r : Regex) (a b pos : Nat) (s : List Char) (caps : Caps) (k : Cont) :
    Regex.run (.rep r a b) pos s caps k = runRep r.run a (b - a) pos s caps k := rfl

/-- A capturing group records what its body consumed. -/
theorem run_cap (n : Nat) (r : Regex) (pos : Nat) (s : List Char) (caps : Caps) (k : Cont) :
    Regex.run (.cap n r) pos s caps k =
      r.run pos s caps (fun m s1 caps1 => k m s1 ((n, m) :: caps1)) := rfl

/-- An alternative succeeds when either branch does. -/
theorem isSome_orElse {α : Type} (a : Option α) (b : Unit → Option α) :
    (a.orElse b).isSome = (a.isSome || (b ()).isSome) := by
  cases a <;> simp [Option.orElse]

/-- When the continuation only looks at the remaining input, up to `e` optional
copies of a class succeed exactly when some `j ≤ e` leading class characters can
be taken so that the continuation accepts what is left. -/
theorem runUpTo_cls_isSome (p : Char → Bool) (Q : List Char → Bool) :
    ∀ (e pos : Nat) (s : List Char) (caps : Caps) (k : Cont),
      (∀ m s1 c, (k m s1 c).isSome = Q s1) →
      ((runUpTo (Regex.run (.cls p)) e pos s caps k).isSome = true ↔
        ∃ j, j ≤ e ∧ j ≤ s.length ∧ (∀ c ∈ s.take j, p c = true)
          ∧ Q (s.drop j) = true) := by
  intro e
  induction e with
  | zero =>
    intro pos s caps k hk
    simp [runUpTo, hk]
  | succ e ih =>
    intro pos s caps k hk
    rw [runUpTo, isSome_orElse, hk]
    cases s with
    | nil =>
      rw [run_cls_nil]
      simp only [Option.isSome_none, Bool.false_or, List.length_nil, Nat.le_zero_eq,
        List.take_nil, List.not_mem_nil, false_implies, implies_true, List.drop_nil, true_and]
      constructor
      · intro hq
        exact ⟨0, by omega, rfl, hq⟩
      · rintro ⟨j, _, _, hq⟩
        exact hq
    | cons d t =>
      have hk2 : ∀ m s1 c, ((fun m2 s2 caps2 => k ([d] ++ m2) s2 caps2 : Cont) m s1 c).isSome
          = Q s1 := fun m s1 c => hk _ _ _
      have h := ih (pos + 1) t caps _ hk2
      rw [run_cls_cons]
      constructor
      · intro hx
        by_cases hp : p d = true
        · simp only [hp, if_true, List.length_singleton, Bool.or_eq_true] at hx
          rcases hx with hx | hx
          · obtain ⟨j, hj, hl, ha, hq⟩ := h.mp hx
            refine ⟨j + 1, by omega, by simpa using hl, ?_, by simpa using hq⟩
            intro c hc
            simp only [List.take_succ_cons, List.mem_cons] at hc
            rcases hc with rfl | hc
            · exact hp
            · exact ha c hc
          · exact ⟨0, by omega, by simp, by simp, by simpa using hx⟩
        · simp only [hp, Bool.false_eq_true, if_false, Option.isSome_none, Bool.false_or] at hx
          exact ⟨0, by omega, by simp, by simp, by simpa using hx⟩
      · rintro ⟨j, hj, hl, ha, hq⟩
        cases j with
        | zero => simp at hq; simp [hq]
        | succ j =>
          have hp : p d = true := ha d (by simp)
          simp only [hp, if_true, List.length_singleton, Bool.or_eq_true]
          left
          refine h.mpr ⟨j, by omega, by simpa using hl, ?_, by simpa using hq⟩
          intro c hc
          exact ha c (by simp [hc])

/-- When the continuation only looks at the remaining input, `x{n,n+e}` over a
class succeeds exactly when some `j` between `n` and `n + e` leading class
characters can be taken so that the continuation accepts what is left. -/
theorem runRep_cls_isSome (p : Char → Bool) (Q : List Char → Bool) :
    ∀ (n e pos : Nat) (s : List Char) (caps : Caps) (k : Cont),
      (∀ m s1 c, (k m s1 c).isSome = Q s1) →
      ((runRep (Regex.run (.cls p)) n e pos s caps k).isSome = true ↔
        ∃ j, n ≤ j ∧ j ≤ n + e ∧ j ≤ s.length ∧ (∀ c ∈ s.take j, p c = true)
          ∧ Q (s.drop j) = true) := by
  intro n
  induction n with
  | zero =>
    intro e pos s caps k hk
    rw [runRep, runUpTo_cls_isSome p Q e pos s caps k hk]
    simp
  | succ n ih =>
    intro e pos s caps k hk
    rw [runRep]
    cases s with
    | nil =>
      rw [run_cls_nil]
      simp
      intro j hj _ hz
      omega
    | cons d t =>
      have hk2 : ∀ m s1 c, ((fun m2 s2 caps2 => k ([d] ++ m2) s2 caps2 : Cont) m s1 c).isSome
          = Q s1 := fun m s1 c => hk _ _ _
      have h := ih e (pos + 1) t caps _ hk2
      rw [run_cls_cons]
      constructor
      · intro hx
        by_cases hp : p d = true
        · simp only [hp, if_true, List.length_singleton] at hx
          obtain ⟨j, hn, hj, hl, ha, hq⟩ := h.mp hx
          refine ⟨j + 1, by omega, by omega, by simpa using hl, ?_, by simpa using hq⟩
          intro c hc
          simp only [List.take_succ_cons, List.mem_cons] at hc
          rcases hc with rfl | hc
          · exact hp
          · exact ha c hc
        · simp [hp] at hx
      · rintro ⟨j, hn, hj, hl, ha, hq⟩
        cases j with
        | zero => omega
        | succ j =>
          have hp : p d = true := ha d (by simp)
          simp only [hp, if_true, List.length_singleton]
          refine h.mpr ⟨j, by omega, by omega, by simpa using hl, ?_, by simpa using hq⟩
          intro c hc
          exact ha c (by simp [hc])

/-- A greedy run of optional copies of a class takes the whole maximal stretch
`w` of class characters when the continuation accepts it. -/
theorem runUpTo_cls_greedy (p : Char → Bool) :
    ∀ (e : Nat) (w t : List Char) (pos : Nat) (caps : Caps) (k : Cont) (r : Caps),
      (∀ c ∈ w, p c = true) → w.length ≤ e →
      (w.length = e ∨ ∀ d ∈ t.head?, p d = false) →
      k w t caps = some r →
      runUpTo (Regex.run (.cls p)) e pos (w ++ t) caps k = some r := by
  intro e
  induction e with
  | zero =>
    intro w t pos caps k r _ hl _ hk
    have : w = [] := List.length_eq_zero.mp (by omega)
    subst this
    simpa [runUpTo] using hk
  | succ e ih =>
    intro w t pos caps k r hw hl hmax hk
    rw [runUpTo]
    cases w with
    | nil =>
      have hstep : Regex.run (.cls p) pos ([] ++ t) caps (fun m s1 caps1 =>
          runUpTo (Regex.run (.cls p)) e (pos + m.length) s1 caps1
            (fun m2 s2 caps2 => k (m ++ m2) s2 caps2)) = none := by
        cases t with
        | nil => rfl
        | cons d t =>
          have hd : p d = false := by
            rcases hmax with h | h
            · simp at h
            · exact h d (by simp)
          simp [run_cls_cons, hd]
      rw [hstep]
      simpa [Option.orElse] using hk
    | cons d w =>
      have hd : p d = true := hw d (by simp)
      have hrec := ih w t (pos + 1) caps (fun m2 s2 caps2 => k ([d] ++ m2) s2 caps2) r
        (fun c hc => hw c (by simp [hc])) (by simpa using hl)
        (by
          rcases hmax with h | h
          · left; simpa using h
          · right; exact h)
        (by simpa using hk)
      rw [List.cons_append, run_cls_cons, if_pos hd]
      simp only [List.length_singleton]
      rw [hrec]
      rfl

/-- A greedy counted repetition of a class takes the whole maximal stretch `w`
of class characters when its length is within the bounds and the continuation
accepts it. -/
theorem runRep_cls_greedy (p : Char → Bool) :
    ∀ (n e : Nat) (w t : List Char) (pos : Nat) (caps : Caps) (k : Cont) (r : Caps),
      (∀ c ∈ w, p c = true) → n ≤ w.length → w.length ≤ n + e →
      (w.length = n + e ∨ ∀ d ∈ t.head?, p d = false) →
      k w t caps = some r →
      runRep (Regex.run (.cls p)) n e pos (w ++ t) caps k = some r := by
  intro n
  induction n with
  | zero =>
    intro e w t pos caps k r hw _ hl hmax hk
    rw [runRep]
    exact runUpTo_cls_greedy p e w t pos caps k r hw (by omega)
      (by rcases hmax with h | h; · left; omega
          · right; exact h) hk
  | succ n ih =>
    intro e w t pos caps k r hw hn hl hmax hk
    rw [runRep]
    cases w with
    | nil => simp at hn
    | cons d w =>
      have hd : p d = true := hw d (by simp)
      have hrec := ih e w t (pos + 1) caps (fun m2 s2 caps2 => k ([d] ++ m2) s2 caps2) r
        (fun c hc => hw c (by simp [hc])) (by simpa using hn)
        (by simp only [List.length_cons] at hl; omega)
        (by
          rcases hmax with h | h
          · left; simp only [List.length_cons] at h; omega
          · right; exact h)
        (by simpa using hk)
      rw [List.cons_append, run_cls_cons, if_pos hd]
      simp only [List.length_singleton]
      exact hrec

/-- A pattern that starts with `^` matches at no offset but 0. -/
theorem findFrom_bot_pos (q : Regex) (s : List Char) :
    ∀ pos, 0 < pos → Regex.findFrom (.cat .bot q) pos s = none := by
  induction s with
  | nil =>
    intro pos hpos
    have : pos ≠ 0 := by omega
    simp [Regex.findFrom, run_cat, run_bot, this]
  | cons c t ih =>
    intro pos hpos
    have : pos ≠ 0 := by omega
    simp [Regex.findFrom, run_cat, run_bot, this, ih (pos + 1) (by omega)]

/-- The search for a pattern that starts with `^` is its match at offset 0. -/
theorem findFrom_bot_zero (q : Regex) (s : List Char) :
    Regex.findFrom (.cat .bot q) 0 s = q.run 0 s [] (fun _ _ caps => some caps) := by
  cases s with
  | nil => simp [Regex.findFrom, run_cat, run_bot]
  | cons c t =>
    simp only [Regex.findFrom, run_cat, run_bot, if_true, List.length_nil, Nat.add_zero,
      List.nil_append, findFrom_bot_pos q t 1 (by omega)]
    cases q.run 0 (c :: t) [] (fun _ _ caps => some caps) <;> rfl

/-- A match at offset 0 is the leftmost match. -/
theorem findFrom_of_run (re : Regex) (s : List Char) (r : Caps)
    (h : re.run 0 s [] (fun _ _ caps => some caps) = some r) :
    re.findFrom 0 s = some r := by
  cases s with
  | nil => simpa [Regex.findFrom] using h
  | cons c t => simp [Regex.findFrom, h]

/-- A pattern `^x{a,b}$` over a character class matches exactly the strings of
`a` to `b` characters that all lie in the class. -/
theorem MatchString_anchored_class (p : Char → Bool) (a b : Nat) (hab : a ≤ b) (s : String) :
    Regex.MatchString (.cat .bot (.cat (.rep (.cls p) a b) .eot)) s = true ↔
      a ≤ s.length ∧ s.length ≤ b ∧ ∀ c ∈ s.data, p c = true := by
  unfold Regex.MatchString
  rw [findFrom_bot_zero, run_cat, run_rep,
    runRep_cls_isSome p (fun s1 => decide (s1 = [])) a (b - a) 0 s.data [] _
      (by intro m s1 c; by_cases h : s1 = [] <;> simp [run_eot, h])]
  have hlen : s.length = s.data.length := rfl
  constructor
  · rintro ⟨j, hn, hj, hl, ha, hq⟩
    have hq2 : s.data.length ≤ j := by simpa using hq
    have hjl : j = s.data.length := by omega
    subst hjl
    refine ⟨by omega, by omega, ?_⟩
    rw [List.take_length] at ha
    exact ha
  · rintro ⟨h1, h2, h3⟩
    exact ⟨s.data.length, by omega, by omega, le_refl _, by rw [List.take_length]; exact h3,
      by simp⟩

/-- The class `\d` in terms of character ranges. -/
theorem isDigit_iff (c : Char) : isDigit c = true ↔ '0' ≤ c ∧ c ≤ '9' := by
  simp [isDigit]

/-- The class `[0-9A-Za-z]` in terms of character ranges. -/
theorem isAlnum_iff (c : Char) :
    isAlnum c = true ↔
      ('0' ≤ c ∧ c ≤ '9') ∨ ('A' ≤ c ∧ c ≤ 'Z') ∨ ('a' ≤ c ∧ c ≤ 'z') := by
  simp [isAlnum, or_assoc]

/-- A colon is not a word character. -/
theorem isWord_ne_colon (c : Char) (h : isWord c = true) : c ≠ ':' := by
  rintro rfl
  revert h
  decide

/-- The character `>` is not a digit. -/
theorem isDigit_gt : isDigit '>' = false := by decide

/-- A valid discord ID is a string of 17 to 19 ASCII digits. -/
theorem isValidDiscordId_iff (id : String) :
    isValidDiscordId id = true ↔
      17 ≤ id.length ∧ id.length ≤ 19 ∧ ∀ c ∈ id.data, isDigit c = true :=
  MatchString_anchored_class isDigit 17 19 (by decide) id

/-- A valid Spotify ID is a string of 22 ASCII letters and digits. -/
theorem isValidSpotifyId_iff (id : String) :
    isValidSpotifyId id = true ↔ id.length = 22 ∧ ∀ c ∈ id.data, isAlnum c = true := by
  have h := MatchString_anchored_class isAlnum 22 22 (by decide) id
  unfold isValidSpotifyId spotifyIdRegex
  rw [h]
  constructor
  · rintro ⟨h1, h2, h3⟩
    exact ⟨by omega, h3⟩
  · rintro ⟨h1, h3⟩
    exact ⟨by omega, by omega, h3⟩

/-- A string whose first character is not a digit is not a discord ID. -/
theorem not_isValidDiscordId_of_head (c : Char) (t : List Char) (h : isDigit c = false) :
    isValidDiscordId (String.mk (c :: t)) = false := by
  rw [Bool.eq_false_iff]
  intro hv
  have := ((isValidDiscordId_iff _).mp hv).2.2 c (by simp)
  rw [h] at this
  exact Bool.noConfusion this

/-- The closing part `(\d{17,19})?>?` of the emoji pattern on an id followed by
`>`: the id is submatch 3. -/
theorem run_emoji_id (pos : Nat) (id : List Char) (caps : Caps) (k : Cont)
    (hk : ∀ m s c, k m s c = some c)
    (h17 : 17 ≤ id.length) (h19 : id.length ≤ 19) (hd : ∀ c ∈ id, isDigit c = true) :
    Regex.run (.cat (.opt (.cap 3 (.rep (.cls isDigit) 17 19))) (.opt (.lit '>')))
      pos (id ++ ['>']) caps k = some ((3, id) :: caps) := by
  rw [run_cat, run_opt, run_cap, run_rep]
  rw [runRep_cls_greedy isDigit 17 (19 - 17) id ['>'] pos caps _ ((3, id) :: caps) hd h17
    (by omega) (Or.inr (by simp [isDigit_gt]))]
  · rfl
  · simp [run_opt, run_lit_cons, hk, Option.orElse]

/-- The closing part `(\d{17,19})?>?` of the emoji pattern at the end of the
text: no submatch is added. -/
theorem run_emoji_id_nil (pos : Nat) (caps : Caps) (k : Cont)
    (hk : ∀ m s c, k m s c = some c) :
    Regex.run (.cat (.opt (.cap 3 (.rep (.cls isDigit) 17 19))) (.opt (.lit '>')))
      pos [] caps k = some caps := by
  rw [run_cat, run_opt, run_cap, run_rep]
  simp [runRep, run_cls_nil, run_opt, run_lit_nil, hk, Option.orElse]

/-- The part `(\w{2,32}):` of the emoji pattern on a name followed by a colon:
the name is submatch 2 and matching goes on after the colon. -/
theorem run_emoji_name (q : Regex) (pos : Nat) (name u : List Char) (caps : Caps) (k : Cont)
    (r : Caps) (h2 : 2 ≤ name.length) (h32 : name.length ≤ 32)
    (hw : ∀ c ∈ name, isWord c = true)
    (hq : q.run (pos + name.length + 1) u ((2, name) :: caps)
      (fun m2 s2 caps2 => k (name ++ ([':'] ++ m2)) s2 caps2) = some r) :
    Regex.run (.cat (.cap 2 (.rep (.cls isWord) 2 32)) (.cat (.lit ':') q))
      pos (name ++ ':' :: u) caps k = some r := by
  rw [run_cat, run_cap, run_rep]
  apply runRep_cls_greedy isWord 2 (32 - 2) name (':' :: u) pos caps _ r hw h2 (by omega)
    (Or.inr (by simp; decide))
  simp only [run_cat, run_lit_cons, if_true, List.length_singleton]
  exact hq

/-- The emoji pattern on `<a:name:id>`. -/
theorem find_emoji_animated (name id : List Char)
    (h2 : 2 ≤ name.length) (h32 : name.length ≤ 32) (hw : ∀ c ∈ name, isWord c = true)
    (h17 : 17 ≤ id.length) (h19 : id.length ≤ 19) (hd : ∀ c ∈ id, isDigit c = true) :
    emojiRegex.findFrom 0 ('<' :: 'a' :: ':' :: (name ++ ':' :: (id ++ ['>'])))
      = some [(3, id), (2, name), (1, ['a'])] := by
  apply findFrom_of_run
  unfold emojiRegex
  rw [run_cat, run_opt, run_lit_cons, if_pos rfl]
  simp only [List.length_singleton]
  rw [run_cat, run_opt, run_cat, run_cap, run_lit_cons, if_pos rfl]
  simp only [List.length_singleton]
  rw [run_lit_cons, if_pos rfl]
  rw [run_emoji_name _ _ name (id ++ ['>']) _ _ [(3, id), (2, name), (1, ['a'])] h2 h32 hw]
  · rfl
  · exact run_emoji_id _ id _ _ (fun _ _ _ => rfl) h17 h19 hd

/-- The emoji pattern on `<name:id>`. -/
theorem find_emoji_static (name id : List Char)
    (h2 : 2 ≤ name.length) (h32 : name.length ≤ 32) (hw : ∀ c ∈ name, isWord c = true)
    (h17 : 17 ≤ id.length) (h19 : id.length ≤ 19) (hd : ∀ c ∈ id, isDigit c = true) :
    emojiRegex.findFrom 0 ('<' :: (name ++ ':' :: (id ++ ['>'])))
      = some [(3, id), (2, name)] := by
  apply findFrom_of_run
  unfold emojiRegex
  rw [run_cat, run_opt, run_lit_cons, if_pos rfl]
  simp only [List.length_singleton]
  rw [run_cat, run_opt]
  obtain ⟨n0, n1, rest, rfl⟩ : ∃ n0 n1 rest, name = n0 :: n1 :: rest := by
    match name, h2 with
    | n0 :: n1 :: rest, _ => exact ⟨n0, n1, rest, rfl⟩
  have hn1 : n1 ≠ ':' := isWord_ne_colon n1 (hw n1 (by simp))
  have hfail : ∀ (pos : Nat) (t : List Char) (caps : Caps) (k : Cont),
      Regex.run (.cat (.cap 1 (.lit 'a')) (.lit ':')) pos (n0 :: n1 :: t) caps k = none := by
    intro pos t caps k
    rw [run_cat, run_cap, run_lit_cons]
    by_cases h : n0 = 'a'
    · rw [if_pos h, run_lit_cons, if_neg hn1]
    · rw [if_neg h]
  rw [List.cons_append, List.cons_append, hfail]
  rw [← List.cons_append, ← List.cons_append]
  rw [run_emoji_name _ _ (n0 :: n1 :: rest) (id ++ ['>']) _ _ [(3, id), (2, n0 :: n1 :: rest)]
    h2 h32 hw]
  · rfl
  · exact run_emoji_id _ id _ _ (fun _ _ _ => rfl) h17 h19 hd

/-! ## Text setters -/

/-- A text has at least as many bytes as characters. -/
theorem utf8ByteSize_go_ge (l : List Char) : l.length ≤ String.utf8ByteSize.go l := by
  induction l with
  | nil => simp [String.utf8ByteSize.go]
  | cons c cs ih =>
    have := Char.utf8Size_pos c
    simp only [String.utf8ByteSize.go, List.length_cons]
    omega

/-- The Go `len` of a string is at least its number of characters. -/
theorem length_le_len (s : String) : s.length ≤ len s := by
  cases s with
  | mk l => exact utf8ByteSize_go_ge l

/-- The text setters on byte length: a text of more than 128 bytes, hence every
text of more than 128 characters, is rejected and the receiver is left as it
was; a text of at most 128 bytes is stored unchanged. -/
theorem text_setters_byte_contract (c : customStatus) (b : baseActivity) (r : richPresence)
    (s : String) :
    (128 < s.length → 128 < len s) ∧
    (128 < len s →
      c.SetState s = .panic "State must be 128 characters or less" c ∧
      b.SetState s = .panic "State must be 128 characters or less" b ∧
      b.SetDetails s = .panic "Details must be 128 characters or less" b ∧
      b.SetLargeText s = .panic "Large text must be 128 characters or less" b ∧
      b.SetSmallText s = .panic "Small text must be 128 characters or less" b ∧
      r.SetName s = .panic "Name must be 128 characters or less" r) ∧
    (len s ≤ 128 →
      c.SetState s = .ok { activity := { c.activity with State := s } } ∧
      b.SetState s = .ok { activity := { b.activity with State := s } } ∧
      b.SetDetails s = .ok { activity := { b.activity with Details := s } } ∧
      b.SetLargeText s = .ok { activity := { b.activity with
        Assets := { b.activity.Assets with LargeText := s } } } ∧
      b.SetSmallText s = .ok { activity := { b.activity with
        Assets := { b.activity.Assets with SmallText := s } } } ∧
      r.SetName s = .ok { baseActivity := { activity := { r.activity with Name := s } } }) := by
  refine ⟨fun h => lt_of_lt_of_le h (length_le_len s), ?_, ?_⟩
  · intro h
    simp [customStatus.SetState, baseActivity.SetState, baseActivity.SetDetails,
      baseActivity.SetLargeText, baseActivity.SetSmallText, richPresence.SetName, h]
  · intro h
    have h' : ¬ len s > 128 := by omega
    unfold customStatus.SetState baseActivity.SetState baseActivity.SetDetails
      baseActivity.SetLargeText baseActivity.SetSmallText richPresence.SetName
    simp only [if_neg h', true_and]
    rfl

/-- The byte contract of the text setters on two short ASCII texts. -/
theorem text_setters_byte_contract_witness :
    ({ activity := {} } : customStatus).SetState "Playing chess"
        = .ok { activity := { State := "Playing chess" } } ∧
    ({} : richPresence).SetName "Chess"
        = .ok { baseActivity := { activity := { Name := "Chess" } } } :=
  have h := (text_setters_byte_contract {activity := {}} {} {} "Playing chess").2.2 (by decide)
  have h2 := (text_setters_byte_contract {activity := {}} {} {} "Chess").2.2 (by decide)
  ⟨h.1, h2.2.2.2.2.2⟩

/-- C1 (evaluation at the failing input): the text of 65 letters `é` has 65
characters, at most 128, yet `SetState` (custom status and rich presence),
`SetDetails`, `SetLargeText`, `SetSmallText` and `SetName` all panic on it,
because the limit is tested on its 130 bytes. -/
theorem text_setters_reject_65_characters :
    sixtyFiveAccents.length = 65 ∧ len sixtyFiveAccents = 130 ∧
    ∀ (c : customStatus) (b : baseActivity) (r : richPresence),
      c.SetState sixtyFiveAccents = .panic "State must be 128 characters or less" c ∧
      b.SetState sixtyFiveAccents = .panic "State must be 128 characters or less" b ∧
      b.SetDetails sixtyFiveAccents = .panic "Details must be 128 characters or less" b ∧
      b.SetLargeText sixtyFiveAccents = .panic "Large text must be 128 characters or less" b ∧
      b.SetSmallText sixtyFiveAccents = .panic "Small text must be 128 characters or less" b ∧
      r.SetName sixtyFiveAccents = .panic "Name must be 128 characters or less" r := by
  have h : len sixtyFiveAccents = 130 := by decide
  refine ⟨by decide, h, ?_⟩
  intro c b r
  simp [customStatus.SetState, baseActivity.SetState, baseActivity.SetDetails,
    baseActivity.SetLargeText, baseActivity.SetSmallText, richPresence.SetName, h]

/-! ## Application ID -/

/-- C2: `SetApplicationID(id)` succeeds exactly when `id` consists of 17 to 19
decimal digits and nothing else; on success the application-ID field is `id`
and nothing else changes, and on every other string the call panics. -/
theorem SetApplicationID_spec (b : baseActivity) (id : String) :
    b.SetApplicationID id =
      if 17 ≤ id.length ∧ id.length ≤ 19 ∧ ∀ c ∈ id.data, '0' ≤ c ∧ c ≤ '9' then
        .ok { activity := { b.activity with ApplicationID := id } }
      else .panic "Invalid application id" b := by
  unfold baseActivity.SetApplicationID
  by_cases h : isValidDiscordId id = true
  · have h2 := (isValidDiscordId_iff id).mp h
    simp only [isDigit_iff] at h2
    simp only [h, Bool.not_true, Bool.false_eq_true, if_false]
    rw [if_pos h2]
  · have h2 := fun hc => h ((isValidDiscordId_iff id).mpr hc)
    simp only [isDigit_iff] at h2
    simp only [h, Bool.not_eq_true, Bool.not_false, if_true] 
    rw [if_neg h2]

/-! ## Image resolution -/

/-- Passing over `k` characters is replacing in the text without them. -/
theorem replaceFrom_skip (old new : List Char) :
    ∀ (l : List Char) (k : Nat), replaceFrom old new k l = replaceFrom old new 0 (l.drop k) := by
  intro l
  induction l with
  | nil => intro k; cases k <;> simp [replaceFrom]
  | cons c t ih =>
    intro k
    cases k with
    | zero => rfl
    | succ k => rw [replaceFrom, ih k, List.drop_succ_cons]

/-- An occurrence at the start is replaced and the scan goes on behind it. -/
theorem replaceFrom_at_origin (a : Char) (o new rest : List Char) :
    replaceFrom (a :: o) new 0 ((a :: o) ++ rest) = new ++ replaceFrom (a :: o) new 0 rest := by
  rw [List.cons_append, replaceFrom]
  have hp : (a :: o).isPrefixOf (a :: (o ++ rest)) = true := by
    rw [← List.cons_append]
    exact List.isPrefixOf_iff_prefix.mpr (List.prefix_append _ _)
  rw [if_pos hp, replaceFrom_skip]
  simp

/-- `ReplaceAll` on a string that starts with `old`. -/
theorem ReplaceAll_at_origin (old new rest : String) (h : old.data ≠ []) :
    ReplaceAll (old ++ rest) old new = new ++ ReplaceAll rest old new := by
  unfold ReplaceAll
  rw [if_neg h, if_neg h]
  apply String.ext
  obtain ⟨a, o, ho⟩ : ∃ a o, old.data = a :: o := by
    cases hd : old.data with
    | nil => exact absurd hd h
    | cons a o => exact ⟨a, o, rfl⟩
  simp only [String.data_append, ho]
  exact replaceFrom_at_origin a o new.data rest.data

/-- On a well-formed URL that starts with a known CDN origin, `parseImage`
returns `mp:` followed by the part after the leading origin in which every
further occurrence of the same origin is replaced by `mp:` as well. -/
theorem parseImage_cdn (cdn rest : String) (hc : cdn ∈ discordCdns)
    (hv : isValidURL (cdn ++ rest) = true) :
    parseImage (cdn ++ rest) = "mp:" ++ ReplaceAll rest cdn "mp:" := by
  have hne : cdn.data ≠ [] := by
    simp only [discordCdns, List.mem_cons, List.mem_singleton, List.not_mem_nil, or_false] at hc
    rcases hc with rfl | rfl | rfl | rfl <;> decide
  rw [← ReplaceAll_at_origin cdn "mp:" rest hne]
  unfold parseImage
  have hhead : ∃ t, cdn ++ rest = String.mk ('h' :: t) := by
    simp only [discordCdns, List.mem_cons, List.mem_singleton, List.not_mem_nil, or_false] at hc
    rcases hc with rfl | rfl | rfl | rfl <;>
      exact ⟨_, String.ext (by simp only [String.data_append]; rfl)⟩
  obtain ⟨t, ht⟩ := hhead
  have hid : isValidDiscordId (cdn ++ rest) = false := by
    rw [ht]; exact not_isValidDiscordId_of_head 'h' t (by decide)
  have hp : ∀ pre : String, (∃ c p, pre = String.mk (c :: p) ∧ c ≠ 'h') →
      HasPrefix (cdn ++ rest) pre = false := by
    rintro pre ⟨c, p, rfl, hch⟩
    rw [ht]
    simp [HasPrefix, List.isPrefixOf, hch]
  rw [hid, hp "mp:" ⟨'m', _, rfl, by decide⟩, hp "youtube:" ⟨'y', _, rfl, by decide⟩,
    hp "spotify:" ⟨'s', _, rfl, by decide⟩, hp "twitch:" ⟨'t', _, rfl, by decide⟩,
    hp "external/" ⟨'e', _, rfl, by decide⟩, hv]
  simp only [Bool.false_eq_true, if_false, Bool.or_self, if_true]
  have hfind : discordCdns.find? (fun c => HasPrefix (cdn ++ rest) c) = some cdn := by
    simp only [discordCdns, List.mem_cons, List.mem_singleton, List.not_mem_nil, or_false] at hc
    rcases hc with rfl | rfl | rfl | rfl <;>
      simp [discordCdns, List.find?, HasPrefix, String.data_append, List.isPrefixOf]
  rw [hfind]

/-- The rewriting of a CDN URL on the example of the specification. -/
theorem parseImage_cdn_witness :
    parseImage ("https://cdn.discordapp.com/" ++ "icons/1/a.png")
      = "mp:" ++ ReplaceAll "icons/1/a.png" "https://cdn.discordapp.com/" "mp:" :=
  parseImage_cdn "https://cdn.discordapp.com/" "icons/1/a.png" (by decide) (by decide)

/-- The example of the specification: a CDN URL resolves to `mp:icons/1/a.png`. -/
theorem parseImage_spec_example :
    parseImage "https://cdn.discordapp.com/icons/1/a.png" = "mp:icons/1/a.png" := by
  decide

/-- C3 (evaluation at the failing input): a well-formed URL that starts with
the CDN origin `https://cdn.discordapp.com/` and names the same origin once
more in its query does not resolve to `mp:` followed by the untouched rest: the
later occurrence is rewritten to `mp:` as well. -/
theorem parseImage_rewrites_later_origin :
    isValidURL "https://cdn.discordapp.com/a.png?from=https://cdn.discordapp.com/b.png" = true ∧
    HasPrefix "https://cdn.discordapp.com/a.png?from=https://cdn.discordapp.com/b.png"
      "https://cdn.discordapp.com/" = true ∧
    "https://cdn.discordapp.com/a.png?from=https://cdn.discordapp.com/b.png"
      = "https://cdn.discordapp.com/" ++ "a.png?from=https://cdn.discordapp.com/b.png" ∧
    parseImage "https://cdn.discordapp.com/a.png?from=https://cdn.discordapp.com/b.png"
      = "mp:a.png?from=mp:b.png" ∧
    parseImage "https://cdn.discordapp.com/a.png?from=https://cdn.discordapp.com/b.png"
      ≠ "mp:" ++ "a.png?from=https://cdn.discordapp.com/b.png" := by
  decide

/-! ## Emoji resolution -/

/-- C4: for a name of 2 to 32 word characters and an id of 17 to 19 digits,
`parseEmoji` maps `<a:name:id>` to that name and id with `animated = true`, and
`<name:id>` to that name and id with `animated = false`. -/
theorem parseEmoji_shorthand (name id : String)
    (h2 : 2 ≤ name.length) (h32 : name.length ≤ 32)
    (hw : ∀ c ∈ name.data,
      ('0' ≤ c ∧ c ≤ '9') ∨ ('A' ≤ c ∧ c ≤ 'Z') ∨ ('a' ≤ c ∧ c ≤ 'z') ∨ c = '_')
    (h17 : 17 ≤ id.length) (h19 : id.length ≤ 19)
    (hd : ∀ c ∈ id.data, '0' ≤ c ∧ c ≤ '9') :
    parseEmoji ("<a:" ++ name ++ ":" ++ id ++ ">")
      = { Name := name, ID := id, Animated := true } ∧
    parseEmoji ("<" ++ name ++ ":" ++ id ++ ">")
      = { Name := name, ID := id, Animated := false } := by
  have hw2 : ∀ c ∈ name.data, isWord c = true := by
    intro c hc
    have := hw c hc
    simp only [isWord, isAlnum, Bool.or_eq_true, Bool.and_eq_true, decide_eq_true_eq]
    tauto
  have hd2 : ∀ c ∈ id.data, isDigit c = true := fun c hc => (isDigit_iff c).mpr (hd c hc)
  have e1 : "<a:" ++ name ++ ":" ++ id ++ ">"
      = String.mk ('<' :: 'a' :: ':' :: (name.data ++ ':' :: (id.data ++ ['>']))) := by
    apply String.ext
    simp [String.data_append]
  have e2 : "<" ++ name ++ ":" ++ id ++ ">"
      = String.mk ('<' :: (name.data ++ ':' :: (id.data ++ ['>']))) := by
    apply String.ext
    simp [String.data_append]
  constructor
  · rw [e1]
    unfold parseEmoji
    rw [not_isValidDiscordId_of_head _ _ (by decide)]
    simp only [Regex.FindStringSubmatch, Bool.false_eq_true, if_false]
    rw [find_emoji_animated name.data id.data h2 h32 hw2 h17 h19 hd2]
    simp [Caps.group, List.lookup]
  · rw [e2]
    unfold parseEmoji
    rw [not_isValidDiscordId_of_head _ _ (by decide)]
    simp only [Regex.FindStringSubmatch, Bool.false_eq_true, if_false]
    rw [find_emoji_static name.data id.data h2 h32 hw2 h17 h19 hd2]
    simp [Caps.group, List.lookup]

/-- The example of the specification, `<a:wave:123456789012345678>`, and its
static form. -/
theorem parseEmoji_shorthand_witness :
    parseEmoji ("<a:" ++ "wave" ++ ":" ++ "123456789012345678" ++ ">")
      = { Name := "wave", ID := "123456789012345678", Animated := true } ∧
    parseEmoji ("<" ++ "wave" ++ ":" ++ "123456789012345678" ++ ">")
      = { Name := "wave", ID := "123456789012345678", Animated := false } :=
  parseEmoji_shorthand "wave" "123456789012345678" (by decide) (by decide) (by decide)
    (by decide) (by decide) (by decide)

/-! ## Album id -/

/-- C5: `SetAlbumId(id)` succeeds exactly when `id` is 22 ASCII alphanumeric
characters; on success the album id is `id`, the context URI is
`spotify:album:` followed by `id` and every other field is unchanged; any other
input panics. -/
theorem SetAlbumId_spec (s : spotifyRichPresence) (id : String) :
    s.SetAlbumId id =
      if id.length = 22 ∧
          ∀ c ∈ id.data,
            ('0' ≤ c ∧ c ≤ '9') ∨ ('A' ≤ c ∧ c ≤ 'Z') ∨ ('a' ≤ c ∧ c ≤ 'z') then
        .ok { baseActivity := { activity := { s.activity with
          Metadata := { s.activity.Metadata with
            AlbumId := id, ContextUri := "spotify:album:" ++ id } } } }
      else .panic "Invalid album id" s := by
  unfold spotifyRichPresence.SetAlbumId
  by_cases h : isValidSpotifyId id = true
  · have h2 := (isValidSpotifyId_iff id).mp h
    simp only [isAlnum_iff] at h2
    simp only [h, Bool.not_true, Bool.false_eq_true, if_false]
    rw [if_pos h2]
    rfl
  · have h2 := fun hc => h ((isValidSpotifyId_iff id).mpr hc)
    simp only [isAlnum_iff] at h2
    simp only [h, Bool.not_eq_true, Bool.not_false, if_true]
    rw [if_neg h2]

/-- The examples of the specification: 22 digits are accepted and set both
fields, 21 are rejected. -/
theorem SetAlbumId_examples (s : spotifyRichPresence) :
    (s.SetAlbumId "1234567890123456789012").state.activity.Metadata.AlbumId
        = "1234567890123456789012" ∧
    (s.SetAlbumId "1234567890123456789012").state.activity.Metadata.ContextUri
        = "spotify:album:1234567890123456789012" ∧
    s.SetAlbumId "123456789012345678901" = .panic "Invalid album id" s := by
  have h1 : isValidSpotifyId "1234567890123456789012" = true := by decide
  have h2 : isValidSpotifyId "123456789012345678901" = false := by decide
  simp [spotifyRichPresence.SetAlbumId, h1, h2, Outcome.state, spotifyRichPresence.activity]

/-! ## Buttons -/

/-- `AddButton` in full, with the length of the label counted in bytes. -/
theorem AddButton_spec (r : richPresence) (name url : String) :
    r.AddButton name url =
      if r.activity.Buttons.length < 2 ∧ name ≠ "" ∧ url ≠ "" ∧ len name ≤ 31
          ∧ isValidURL url = true then
        .ok { baseActivity := { activity := { r.activity with
          Buttons := r.activity.Buttons ++ [name],
          Metadata := { r.activity.Metadata with
            ButtonUrls := r.activity.Metadata.ButtonUrls ++ [url] } } } }
      else .panic
        (if 2 ≤ r.activity.Buttons.length then "Rich presence can only have 2 buttons"
         else if name = "" ∨ url = "" then "Button must have name and url"
         else if 31 < len name then "Button name must be less than 32 characters"
         else "Invalid button URL") r := by
  unfold richPresence.AddButton
  by_cases h1 : r.activity.Buttons.length ≥ 2
  · have : ¬ r.activity.Buttons.length < 2 := by omega
    simp [h1, this]
  · have h1' : r.activity.Buttons.length < 2 := by omega
    have h1c : ¬ 2 ≤ r.activity.Buttons.length := h1
    by_cases h2 : name = ""
    · simp [h1, h1', h2]
    · by_cases h3 : url = ""
      · simp [h1, h1', h2, h3]
      · by_cases h4 : len name > 31
        · have : ¬ len name ≤ 31 := by omega
          simp [h1c, h1', h2, h3, h4, this]
        · have h4' : len name ≤ 31 := by omega
          have h4c : ¬ 31 < len name := h4
          by_cases h5 : isValidURL url = true
          · have hc : r.activity.Buttons.length < 2 ∧ name ≠ "" ∧ url ≠ ""
                ∧ len name ≤ 31 ∧ isValidURL url = true := ⟨h1', h2, h3, h4', h5⟩
            rw [if_pos hc, if_neg h1]
            simp only [Bool.or_eq_true, decide_eq_true_eq, h2, h3, or_self, if_false, h4, h5,
              Bool.not_true, Bool.false_eq_true]
            rfl
          · simp [h1c, h1', h2, h3, h4', h4c, h5]

/-- With two buttons present `AddButton` panics. -/
theorem AddButton_of_two (r : richPresence) (name url : String)
    (h : 2 ≤ r.activity.Buttons.length) :
    r.AddButton name url = .panic "Rich presence can only have 2 buttons" r := by
  unfold richPresence.AddButton
  rw [if_pos h]

/-- With fewer than two buttons and valid arguments `AddButton` appends the label
and the URL. -/
theorem AddButton_of_valid (r : richPresence) (name url : String)
    (h1 : r.activity.Buttons.length < 2) (h2 : name ≠ "") (h3 : url ≠ "") (h4 : len name ≤ 31)
    (h5 : isValidURL url = true) :
    r.AddButton name url = .ok { baseActivity := { activity := { r.activity with
      Buttons := r.activity.Buttons ++ [name],
      Metadata := { r.activity.Metadata with
        ButtonUrls := r.activity.Metadata.ButtonUrls ++ [url] } } } } := by
  unfold richPresence.AddButton
  have h1' : ¬ r.activity.Buttons.length ≥ 2 := by omega
  have h4' : ¬ len name > 31 := by omega
  rw [if_neg h1']
  simp only [Bool.or_eq_true, decide_eq_true_eq, h2, h3, or_self, if_false, h4', h5,
    Bool.not_true, Bool.false_eq_true]
  rfl

/-- C6 (evaluation at the failing input): on a freshly constructed rich
presence, a non-empty label of 16 characters with a well-formed URL is rejected
by `AddButton`, because the limit of 31 is tested on the 32 bytes of the
label. -/
theorem AddButton_rejects_16_characters :
    sixteenAccents.length = 16 ∧ len sixteenAccents = 32 ∧
    isValidURL "https://example.com" = true ∧
    NewRichPresence loggedIn = .ok {} ∧
    ({} : richPresence).AddButton sixteenAccents "https://example.com"
      = .panic "Button name must be less than 32 characters" {} := by
  have h1 : len sixteenAccents = 32 := by decide
  have h2 : isValidURL "https://example.com" = true := by decide
  have h3 : sixteenAccents ≠ "" := by decide
  refine ⟨by decide, h1, h2, rfl, ?_⟩
  have hr2 : ¬ ({} : richPresence).activity.Buttons.length ≥ 2 := by decide
  simp [richPresence.AddButton, hr2, h1, h3]

/-- A promoted method that keeps the buttons of the baseActivity keeps those of
the richPresence. -/
theorem promoted_state_buttons (r : richPresence)
    (f : Discordrpcgenerator.baseActivity → Outcome Discordrpcgenerator.baseActivity)
    (hf : ∀ b, (f b).state.activity.Buttons = b.activity.Buttons ∧
      (f b).state.activity.Metadata.ButtonUrls = b.activity.Metadata.ButtonUrls) :
    (r.promoted f).state.activity.Buttons = r.activity.Buttons ∧
    (r.promoted f).state.activity.Metadata.ButtonUrls = r.activity.Metadata.ButtonUrls := by
  have h := hf r.baseActivity
  unfold richPresence.promoted
  cases hfb : f r.baseActivity with
  | ok b => rw [hfb] at h; exact h
  | panic msg b => rw [hfb] at h; exact h

/-- Every call keeps the two button sequences equally long and at most 2 long. -/
theorem Call_run_ButtonsOk (c : richPresence.Call) (r : richPresence) (h : r.ButtonsOk) :
    (c.run r).state.ButtonsOk := by
  have keep : ∀ r' : richPresence, r'.activity.Buttons = r.activity.Buttons →
      r'.activity.Metadata.ButtonUrls = r.activity.Metadata.ButtonUrls → r'.ButtonsOk := by
    intro r' h1 h2
    unfold richPresence.ButtonsOk
    rw [h1, h2]
    exact h
  cases c with
  | SetApplicationID id =>
    have := promoted_state_buttons r (fun b => b.SetApplicationID id) (by
      intro b; unfold baseActivity.SetApplicationID; split <;> exact ⟨rfl, rfl⟩)
    exact keep _ this.1 this.2
  | SetState state =>
    have := promoted_state_buttons r (fun b => b.SetState state) (by
      intro b; unfold baseActivity.SetState; split <;> exact ⟨rfl, rfl⟩)
    exact keep _ this.1 this.2
  | SetDetails details =>
    have := promoted_state_buttons r (fun b => b.SetDetails details) (by
      intro b; unfold baseActivity.SetDetails; split <;> exact ⟨rfl, rfl⟩)
    exact keep _ this.1 this.2
  | SetLargeImage image =>
    exact keep _ rfl rfl
  | SetLargeText text =>
    have := promoted_state_buttons r (fun b => b.SetLargeText text) (by
      intro b; unfold baseActivity.SetLargeText; split <;> exact ⟨rfl, rfl⟩)
    exact keep _ this.1 this.2
  | SetSmallImage image =>
    exact keep _ rfl rfl
  | SetSmallText text =>
    have := promoted_state_buttons r (fun b => b.SetSmallText text) (by
      intro b; unfold baseActivity.SetSmallText; split <;> exact ⟨rfl, rfl⟩)
    exact keep _ this.1 this.2
  | SetStartTimestamp t => exact keep _ rfl rfl
  | SetEndTimestamp t => exact keep _ rfl rfl
  | SetName name =>
    show (r.SetName name).state.ButtonsOk
    unfold richPresence.SetName
    split <;> exact keep _ rfl rfl
  | SetType ty => exact keep _ rfl rfl
  | SetURL url =>
    show (r.SetURL url).state.ButtonsOk
    unfold richPresence.SetURL
    split <;> exact keep _ rfl rfl
  | SetParty id a b => exact keep _ rfl rfl
  | AddButton name url =>
    show (r.AddButton name url).state.ButtonsOk
    unfold richPresence.AddButton
    split
    · exact h
    · split
      · exact h
      · split
        · exact h
        · split
          · exact h
          · rename_i hlt _ _ _
            obtain ⟨h1, h2⟩ := h
            constructor
            · show (r.activity.Buttons ++ [name]).length
                = (r.activity.Metadata.ButtonUrls ++ [url]).length
              simp [h1]
            · show (r.activity.Buttons ++ [name]).length ≤ 2
              simp only [List.length_append, List.length_singleton]
              omega

/-- Every sequence of calls keeps the two button sequences equally long and at
most 2 long. -/
theorem runCalls_ButtonsOk (calls : List richPresence.Call) :
    ∀ r : richPresence, r.ButtonsOk → (r.runCalls calls).ButtonsOk := by
  induction calls with
  | nil => intro r h; exact h
  | cons c cs ih =>
    intro r h
    exact ih _ (Call_run_ButtonsOk c r h)

/-- A freshly constructed rich presence is the zero record. -/
theorem NewRichPresence_ok (client : Session) (r0 : richPresence)
    (h : NewRichPresence client = .ok r0) : r0 = {} := by
  unfold NewRichPresence at h
  cases hu : client.State.User with
  | none => rw [hu] at h; cases h
  | some u => rw [hu] at h; cases h; rfl

/-- With labels of at most 31 bytes: from a freshly constructed rich presence
two `AddButton` calls with non-empty labels and well-formed URLs succeed; once
two buttons are present every further call panics, whatever the name and url;
and in every state reachable by method calls the label sequence and the URL
sequence have the same length, at most 2. -/
theorem AddButton_at_most_twice :
    (∀ (client : Session) (r0 : richPresence) (n1 u1 n2 u2 : String),
      NewRichPresence client = .ok r0 →
      n1 ≠ "" → u1 ≠ "" → len n1 ≤ 31 → isValidURL u1 = true →
      n2 ≠ "" → u2 ≠ "" → len n2 ≤ 31 → isValidURL u2 = true →
      ∃ r1 r2, r0.AddButton n1 u1 = .ok r1 ∧ r1.AddButton n2 u2 = .ok r2 ∧
        r2.activity.Buttons = [n1, n2] ∧ r2.activity.Metadata.ButtonUrls = [u1, u2]) ∧
    (∀ (r : richPresence) (name url : String), 2 ≤ r.activity.Buttons.length →
      r.AddButton name url = .panic "Rich presence can only have 2 buttons" r) ∧
    (∀ (client : Session) (r0 : richPresence) (calls : List richPresence.Call),
      NewRichPresence client = .ok r0 →
      (r0.runCalls calls).activity.Buttons.length
          = (r0.runCalls calls).activity.Metadata.ButtonUrls.length ∧
      (r0.runCalls calls).activity.Buttons.length ≤ 2) := by
  refine ⟨?_, AddButton_of_two, ?_⟩
  · intro client r0 n1 u1 n2 u2 h0 a1 a2 a3 a4 b1 b2 b3 b4
    have hr0 := NewRichPresence_ok client r0 h0
    subst hr0
    have e1 := AddButton_of_valid {} n1 u1 (by decide) a1 a2 a3 a4
    refine ⟨_, _, e1, AddButton_of_valid _ n2 u2 ?_ b1 b2 b3 b4, rfl, rfl⟩
    show ([] ++ [n1]).length < 2
    simp
  · intro client r0 calls h0
    have hr0 := NewRichPresence_ok client r0 h0
    subst hr0
    exact runCalls_ButtonsOk calls _ ⟨rfl, by decide⟩

/-- Two valid buttons, a rejected third one, and the button sequences after a
sequence of four calls. -/
theorem AddButton_at_most_twice_witness :
    (∃ r1 r2, ({} : richPresence).AddButton "Site" "https://example.com" = .ok r1 ∧
      r1.AddButton "Docs" "https://example.com/docs" = .ok r2 ∧
      r2.activity.Buttons = ["Site", "Docs"] ∧
      r2.activity.Metadata.ButtonUrls = ["https://example.com", "https://example.com/docs"]) ∧
    (({} : richPresence).runCalls
        [.AddButton "Site" "https://example.com", .AddButton "Docs" "https://example.com/docs"]
      ).AddButton "More" "https://example.com/more"
      = .panic "Rich presence can only have 2 buttons" (({} : richPresence).runCalls
        [.AddButton "Site" "https://example.com", .AddButton "Docs" "https://example.com/docs"]) ∧
    ((({} : richPresence).runCalls
        [.AddButton "Site" "https://example.com", .SetName "Game",
         .AddButton "Docs" "https://example.com/docs",
         .AddButton "More" "https://example.com/more"]).activity.Buttons.length
      = (({} : richPresence).runCalls
        [.AddButton "Site" "https://example.com", .SetName "Game",
         .AddButton "Docs" "https://example.com/docs",
         .AddButton "More" "https://example.com/more"]).activity.Metadata.ButtonUrls.length ∧
     (({} : richPresence).runCalls
        [.AddButton "Site" "https://example.com", .SetName "Game",
         .AddButton "Docs" "https://example.com/docs",
         .AddButton "More" "https://example.com/more"]).activity.Buttons.length ≤ 2) :=
  ⟨AddButton_at_most_twice.1 loggedIn {} "Site" "https://example.com" "Docs"
      "https://example.com/docs" rfl (by decide) (by decide) (by decide) (by decide)
      (by decide) (by decide) (by decide) (by decide),
    AddButton_at_most_twice.2.1 _ "More" "https://example.com/more" (by decide),
    AddButton_at_most_twice.2.2 loggedIn {} _ rfl⟩

/-- C7 (evaluation at the failing input): on a freshly constructed rich
presence two `AddButton` calls with valid arguments, a non-empty label of 16
characters and a well-formed URL each, both panic and no button is stored,
because the limit of 31 is tested on the 32 bytes of the label. -/
theorem two_valid_buttons_rejected :
    sixteenAccents.length = 16 ∧ sixteenAccents ≠ "" ∧
    isValidURL "https://example.com" = true ∧ isValidURL "https://example.com/docs" = true ∧
    NewRichPresence loggedIn = .ok {} ∧
    ({} : richPresence).AddButton sixteenAccents "https://example.com"
      = .panic "Button name must be less than 32 characters" {} ∧
    (({} : richPresence).AddButton sixteenAccents "https://example.com").state.AddButton
        sixteenAccents "https://example.com/docs"
      = .panic "Button name must be less than 32 characters" {} ∧
    (({} : richPresence).runCalls [.AddButton sixteenAccents "https://example.com",
      .AddButton sixteenAccents "https://example.com/docs"]).activity.Buttons = [] := by
  have h1 : len sixteenAccents = 32 := by decide
  have h3 : sixteenAccents ≠ "" := by decide
  have hr2 : ¬ ({} : richPresence).activity.Buttons.length ≥ 2 := by decide
  have e1 : ∀ url : String, url ≠ "" → isValidURL url = true →
      ({} : richPresence).AddButton sixteenAccents url
        = .panic "Button name must be less than 32 characters" {} := by
    intro url hu _
    simp [richPresence.AddButton, hr2, h1, h3, hu]
  have a1 := e1 "https://example.com" (by decide) (by decide)
  have a2 := e1 "https://example.com/docs" (by decide) (by decide)
  refine ⟨by decide, h3, by decide, by decide, rfl, a1, ?_, ?_⟩
  · rw [a1]
    exact a2
  · show ((richPresence.Call.AddButton sixteenAccents "https://example.com/docs").run
      ((richPresence.Call.AddButton sixteenAccents "https://example.com").run {}).state
      ).state.activity.Buttons = []
    show ((({} : richPresence).AddButton sixteenAccents "https://example.com").state.AddButton
      sixteenAccents "https://example.com/docs").state.activity.Buttons = []
    rw [a1]
    show ((({} : richPresence).AddButton sixteenAccents "https://example.com/docs")
      ).state.activity.Buttons = []
    rw [a2]
    rfl

/-! ## Identity -/

/-- C8: `NewCustomStatus`, `NewRichPresence`, `NewSpotifyRichPresence` and
`ImageLinkToAsset` fail whenever the session's user is nil, whatever the other
arguments; the outcome is the same for any two such sessions; and with a known
user the three constructors succeed. -/
theorem identity_required :
    (∀ client : Session, client.State.User = none →
      NewCustomStatus client = .error "Client is not logged in" ∧
      NewRichPresence client = .error "Client is not logged in" ∧
      NewSpotifyRichPresence client = .error "Client is not logged in" ∧
      ∀ applicationId imageLink : String,
        ImageLinkToAsset client applicationId imageLink = .error "Client is not logged in") ∧
    (∀ c1 c2 : Session, c1.State.User = none → c2.State.User = none →
      NewCustomStatus c1 = NewCustomStatus c2 ∧ NewRichPresence c1 = NewRichPresence c2 ∧
      NewSpotifyRichPresence c1 = NewSpotifyRichPresence c2 ∧
      ∀ applicationId imageLink : String,
        ImageLinkToAsset c1 applicationId imageLink
          = ImageLinkToAsset c2 applicationId imageLink) ∧
    (∀ (client : Session) (user : User), client.State.User = some user →
      NewCustomStatus client
        = .ok { activity := { Name := "Custom Status", Type_ := .Custom } } ∧
      NewRichPresence client = .ok {} ∧
      NewSpotifyRichPresence client = .ok { baseActivity := { activity :=
        { ID := "spotify:1", Name := "Spotify", Type_ := .Listening, Flags := 48,
          Party := { ID := "spotify:" ++ user.ID } } } }) := by
  have hnil : ∀ client : Session, client.State.User = none →
      NewCustomStatus client = .error "Client is not logged in" ∧
      NewRichPresence client = .error "Client is not logged in" ∧
      NewSpotifyRichPresence client = .error "Client is not logged in" ∧
      ∀ applicationId imageLink : String,
        ImageLinkToAsset client applicationId imageLink = .error "Client is not logged in" := by
    intro client h
    simp [NewCustomStatus, NewRichPresence, NewSpotifyRichPresence, ImageLinkToAsset, h]
  refine ⟨hnil, ?_, ?_⟩
  · intro c1 c2 h1 h2
    obtain ⟨a1, a2, a3, a4⟩ := hnil c1 h1
    obtain ⟨b1, b2, b3, b4⟩ := hnil c2 h2
    refine ⟨by rw [a1, b1], by rw [a2, b2], by rw [a3, b3], ?_⟩
    intro x y
    rw [a4, b4]
  · intro client user h
    simp [NewCustomStatus, NewRichPresence, NewSpotifyRichPresence, h]

/-- The identity check on two sessions without a user and on one with a user. -/
theorem identity_required_witness :
    (NewCustomStatus loggedOut = .error "Client is not logged in" ∧
      NewRichPresence loggedOut = .error "Client is not logged in" ∧
      NewSpotifyRichPresence loggedOut = .error "Client is not logged in" ∧
      ∀ applicationId imageLink : String,
        ImageLinkToAsset loggedOut applicationId imageLink
          = .error "Client is not logged in") ∧
    (NewCustomStatus loggedOut = NewCustomStatus loggedOutFailing ∧
      NewRichPresence loggedOut = NewRichPresence loggedOutFailing ∧
      NewSpotifyRichPresence loggedOut = NewSpotifyRichPresence loggedOutFailing ∧
      ∀ applicationId imageLink : String,
        ImageLinkToAsset loggedOut applicationId imageLink
          = ImageLinkToAsset loggedOutFailing applicationId imageLink) ∧
    (NewCustomStatus loggedIn
        = .ok { activity := { Name := "Custom Status", Type_ := .Custom } } ∧
      NewRichPresence loggedIn = .ok {} ∧
      NewSpotifyRichPresence loggedIn = .ok { baseActivity := { activity :=
        { ID := "spotify:1", Name := "Spotify", Type_ := .Listening, Flags := 48,
          Party := { ID := "spotify:" ++ "123456789012345678" } } } }) :=
  ⟨identity_required.1 loggedOut rfl, identity_required.2.1 loggedOut loggedOutFailing rfl rfl,
    identity_required.2.2 loggedIn _ rfl⟩

/-! ## Finalization -/

/-- No call other than `SetName` changes the name. -/
theorem Call_run_Name (c : richPresence.Call) (r : richPresence) (hc : c.isSetName = false) :
    (c.run r).state.activity.Name = r.activity.Name := by
  cases c with
  | SetApplicationID id =>
    show (r.promoted (fun b => b.SetApplicationID id)).state.activity.Name = _
    unfold richPresence.promoted baseActivity.SetApplicationID
    split <;> rfl
  | SetState state =>
    show (r.promoted (fun b => b.SetState state)).state.activity.Name = _
    unfold richPresence.promoted baseActivity.SetState
    split <;> rfl
  | SetDetails details =>
    show (r.promoted (fun b => b.SetDetails details)).state.activity.Name = _
    unfold richPresence.promoted baseActivity.SetDetails
    split <;> rfl
  | SetLargeImage image => rfl
  | SetLargeText text =>
    show (r.promoted (fun b => b.SetLargeText text)).state.activity.Name = _
    unfold richPresence.promoted baseActivity.SetLargeText
    split <;> rfl
  | SetSmallImage image => rfl
  | SetSmallText text =>
    show (r.promoted (fun b => b.SetSmallText text)).state.activity.Name = _
    unfold richPresence.promoted baseActivity.SetSmallText
    split <;> rfl
  | SetStartTimestamp t => rfl
  | SetEndTimestamp t => rfl
  | SetName name => simp [richPresence.Call.isSetName] at hc
  | SetType ty => rfl
  | SetURL url =>
    show (r.SetURL url).state.activity.Name = _
    unfold richPresence.SetURL
    split <;> rfl
  | SetParty id a b => rfl
  | AddButton name url =>
    show (r.AddButton name url).state.activity.Name = _
    unfold richPresence.AddButton
    repeat' split
    all_goals rfl

/-- No sequence of calls without `SetName` changes the name. -/
theorem runCalls_Name (calls : List richPresence.Call) :
    ∀ r : richPresence, (∀ c ∈ calls, c.isSetName = false) →
      (r.runCalls calls).activity.Name = r.activity.Name := by
  induction calls with
  | nil => intro r _; rfl
  | cons c cs ih =>
    intro r h
    have h1 := ih (c.run r).state (fun d hd => h d (by simp [hd]))
    have h2 := Call_run_Name c r (h c (by simp))
    show (richPresence.runCalls cs (c.run r).state).activity.Name = _
    rw [h1, h2]

/-- C9: the data read of a rich or Spotify presence fails exactly when the
name is empty and otherwise returns the accumulated record; `AddActivity` then
appends that record, and on an empty name it panics leaving the presence as it
was; in particular a rich presence on which `SetName` was never called, or was
called with the empty string, cannot be added. -/
theorem finalize_requires_name :
    (∀ r : richPresence,
      r.data = if r.activity.Name = "" then .error "Name is required" else .ok r.activity) ∧
    (∀ s : spotifyRichPresence,
      s.data = if s.activity.Name = "" then .error "Name is required" else .ok s.activity) ∧
    (∀ (p : presence) (r : richPresence),
      p.AddActivity (.rich r) =
        if r.activity.Name = "" then .panic "Name is required" p
        else .ok { data := { p.data with Activities := p.data.Activities ++ [r.activity] } }) ∧
    (∀ (p : presence) (s : spotifyRichPresence),
      p.AddActivity (.spotify s) =
        if s.activity.Name = "" then .panic "Name is required" p
        else .ok { data := { p.data with Activities := p.data.Activities ++ [s.activity] } }) ∧
    (∀ (client : Session) (r0 : richPresence) (calls : List richPresence.Call) (p : presence),
      NewRichPresence client = .ok r0 → (∀ c ∈ calls, c.isSetName = false) →
      p.AddActivity (.rich (r0.runCalls calls)) = .panic "Name is required" p) ∧
    (∀ (r : richPresence) (p : presence),
      r.SetName "" = .ok { baseActivity := { activity := { r.activity with Name := "" } } } ∧
      p.AddActivity (.rich (r.SetName "").state) = .panic "Name is required" p) := by
  have h1 : ∀ r : richPresence,
      r.data = if r.activity.Name = "" then .error "Name is required" else .ok r.activity :=
    fun r => rfl
  have h3 : ∀ (p : presence) (r : richPresence),
      p.AddActivity (.rich r) =
        if r.activity.Name = "" then .panic "Name is required" p
        else .ok { data := { p.data with Activities := p.data.Activities ++ [r.activity] } } := by
    intro p r
    by_cases hn : r.activity.Name = ""
    · have e : activity.data (.rich r) = .error "Name is required" := by
        show (if r.baseActivity.activity.Name = "" then _ else _) = _
        exact if_pos hn
      unfold presence.AddActivity
      rw [e, if_pos hn]
    · have e : activity.data (.rich r) = .ok r.activity := by
        show (if r.baseActivity.activity.Name = "" then _ else _) = _
        exact if_neg hn
      unfold presence.AddActivity
      rw [e, if_neg hn]
  refine ⟨h1, fun s => rfl, h3, ?_, ?_, ?_⟩
  · intro p s
    by_cases hn : s.activity.Name = ""
    · have e : activity.data (.spotify s) = .error "Name is required" := by
        show (if s.baseActivity.activity.Name = "" then _ else _) = _
        exact if_pos hn
      unfold presence.AddActivity
      rw [e, if_pos hn]
    · have e : activity.data (.spotify s) = .ok s.activity := by
        show (if s.baseActivity.activity.Name = "" then _ else _) = _
        exact if_neg hn
      unfold presence.AddActivity
      rw [e, if_neg hn]
  · intro client r0 calls p h0 hc
    have hr0 := NewRichPresence_ok client r0 h0
    subst hr0
    have hn := runCalls_Name calls {} hc
    rw [h3, if_pos (by rw [hn]; rfl)]
  · intro r p
    have hs : r.SetName ""
        = .ok { baseActivity := { activity := { r.activity with Name := "" } } } := by
      unfold richPresence.SetName
      rw [if_neg (by decide)]
      rfl
    refine ⟨hs, ?_⟩
    rw [hs, h3]
    rfl

/-- A rich presence that was given a state and an application ID, but no name,
cannot be added to a presence. -/
theorem finalize_requires_name_witness :
    NewPresence.AddActivity (.rich (({} : richPresence).runCalls
        [.SetState "playing", .SetApplicationID "123456789012345678"]))
      = .panic "Name is required" NewPresence :=
  finalize_requires_name.2.2.2.2.1 loggedIn {}
    [.SetState "playing", .SetApplicationID "123456789012345678"] NewPresence rfl (by decide)

/-- C10 (counterexample): a rich presence built by `NewRichPresence` and
`SetName "Game"` alone has no application ID, and its data read succeeds. -/
theorem finalize_without_application_id :
    NewRichPresence loggedIn = .ok {} ∧
    (({} : richPresence).runCalls [.SetName "Game"]).activity.ApplicationID = "" ∧
    (({} : richPresence).runCalls [.SetName "Game"]).data = .ok { Name := "Game" } := by
  exact ⟨rfl, by decide, rfl⟩

/-- No call other than `SetApplicationID` changes the application ID. -/
theorem Call_run_ApplicationID (c : richPresence.Call) (r : richPresence)
    (hc : c.isSetApplicationID = false) :
    (c.run r).state.activity.ApplicationID = r.activity.ApplicationID := by
  cases c with
  | SetApplicationID id => simp [richPresence.Call.isSetApplicationID] at hc
  | SetState state =>
    show (r.promoted (fun b => b.SetState state)).state.activity.ApplicationID = _
    unfold richPresence.promoted baseActivity.SetState
    split <;> rfl
  | SetDetails details =>
    show (r.promoted (fun b => b.SetDetails details)).state.activity.ApplicationID = _
    unfold richPresence.promoted baseActivity.SetDetails
    split <;> rfl
  | SetLargeImage image => rfl
  | SetLargeText text =>
    show (r.promoted (fun b => b.SetLargeText text)).state.activity.ApplicationID = _
    unfold richPresence.promoted baseActivity.SetLargeText
    split <;> rfl
  | SetSmallImage image => rfl
  | SetSmallText text =>
    show (r.promoted (fun b => b.SetSmallText text)).state.activity.ApplicationID = _
    unfold richPresence.promoted baseActivity.SetSmallText
    split <;> rfl
  | SetStartTimestamp t => rfl
  | SetEndTimestamp t => rfl
  | SetName name =>
    show (r.SetName name).state.activity.ApplicationID = _
    unfold richPresence.SetName
    split <;> rfl
  | SetType ty => rfl
  | SetURL url =>
    show (r.SetURL url).state.activity.ApplicationID = _
    unfold richPresence.SetURL
    split <;> rfl
  | SetParty id a b => rfl
  | AddButton name url =>
    show (r.AddButton name url).state.activity.ApplicationID = _
    unfold richPresence.AddButton
    repeat' split
    all_goals rfl

/-- No sequence of calls without `SetApplicationID` changes the application ID. -/
theorem runCalls_ApplicationID (calls : List richPresence.Call) :
    ∀ r : richPresence, (∀ c ∈ calls, c.isSetApplicationID = false) →
      (r.runCalls calls).activity.ApplicationID = r.activity.ApplicationID := by
  induction calls with
  | nil => intro r _; rfl
  | cons c cs ih =>
    intro r h
    have h1 := ih (c.run r).state (fun d hd => h d (by simp [hd]))
    have h2 := Call_run_ApplicationID c r (h c (by simp))
    show (richPresence.runCalls cs (c.run r).state).activity.ApplicationID = _
    rw [h1, h2]

/-- C10 (amended): on a rich presence whose application ID was never set the
application ID is empty and the data read depends on the name alone: it
succeeds, returning the record, when the name is non-empty and fails when the
name is empty. -/
theorem finalize_ignores_application_id (client : Session) (r0 : richPresence)
    (calls : List richPresence.Call) (h0 : NewRichPresence client = .ok r0)
    (hc : ∀ c ∈ calls, c.isSetApplicationID = false) :
    (r0.runCalls calls).activity.ApplicationID = "" ∧
    ((r0.runCalls calls).activity.Name ≠ "" →
      (r0.runCalls calls).data = .ok (r0.runCalls calls).activity) ∧
    ((r0.runCalls calls).activity.Name = "" →
      (r0.runCalls calls).data = .error "Name is required") := by
  have hr0 := NewRichPresence_ok client r0 h0
  subst hr0
  refine ⟨runCalls_ApplicationID calls {} hc, ?_, ?_⟩
  · intro hn
    show (if (richPresence.runCalls calls {}).baseActivity.activity.Name = "" then _ else _) = _
    exact if_neg hn
  · intro hn
    show (if (richPresence.runCalls calls {}).baseActivity.activity.Name = "" then _ else _) = _
    exact if_pos hn

/-- A rich presence with a name and a state, and no application ID, finalizes. -/
theorem finalize_ignores_application_id_witness :
    (({} : richPresence).runCalls [.SetName "Game", .SetState "playing"]).activity.ApplicationID
      = "" ∧
    (({} : richPresence).runCalls [.SetName "Game", .SetState "playing"]).data
      = .ok (({} : richPresence).runCalls [.SetName "Game", .SetState "playing"]).activity :=
  have h := finalize_ignores_application_id loggedIn {} [.SetName "Game", .SetState "playing"]
    rfl (by decide)
  ⟨h.1, h.2.1 (by decide)⟩

/-! ## Matches of the emoji pattern -/

/-- An alternative that succeeds does so through one of its branches. -/
theorem orElse_some {α : Type} (a : Option α) (b : Unit → Option α) (out : α)
    (h : a.orElse b = some out) : a = some out ∨ b () = some out := by
  cases a with
  | none => exact Or.inr h
  | some v => exact Or.inl h

/-- A literal that matches has consumed its character. -/
theorem run_lit_some (a : Char) (pos : Nat) (s : List Char) (caps : Caps) (k : Cont)
    (out : Caps) (h : Regex.run (.lit a) pos s caps k = some out) :
    ∃ t, s = a :: t ∧ k [a] t caps = some out := by
  cases s with
  | nil => rw [run_lit_nil] at h; exact absurd h (by simp)
  | cons d t =>
    rw [run_lit_cons] at h
    by_cases hd : d = a
    · rw [if_pos hd] at h
      subst hd
      exact ⟨t, rfl, h⟩
    · rw [if_neg hd] at h
      exact absurd h (by simp)

/-- Optional copies of a class that match have consumed at most `e` characters
of the class and left the submatches as they were. -/
theorem runUpTo_cls_some (p : Char → Bool) :
    ∀ (e pos : Nat) (s : List Char) (caps : Caps) (k : Cont) (out : Caps),
      runUpTo (Regex.run (.cls p)) e pos s caps k = some out →
      ∃ m s1, s = m ++ s1 ∧ m.length ≤ e ∧ (∀ c ∈ m, p c = true) ∧
        k m s1 caps = some out := by
  intro e
  induction e with
  | zero =>
    intro pos s caps k out h
    exact ⟨[], s, rfl, le_refl _, by simp, h⟩
  | succ e ih =>
    intro pos s caps k out h
    rw [runUpTo] at h
    rcases orElse_some _ _ _ h with h1 | h1
    · cases s with
      | nil => rw [run_cls_nil] at h1; exact absurd h1 (by simp)
      | cons d t =>
        rw [run_cls_cons] at h1
        by_cases hd : p d = true
        · rw [if_pos hd] at h1
          obtain ⟨m, s1, hs, hl, hp, hk⟩ := ih _ t caps _ out h1
          refine ⟨d :: m, s1, by rw [hs]; rfl, by simp only [List.length_cons]; omega, ?_, hk⟩
          intro c hc
          rcases List.mem_cons.mp hc with rfl | hc
          · exact hd
          · exact hp c hc
        · rw [if_neg hd] at h1
          exact absurd h1 (by simp)
    · exact ⟨[], s, rfl, Nat.zero_le _, by simp, h1⟩

/-- A counted repetition of a class that matches has consumed between `n` and
`n + e` characters of the class and left the submatches as they were. -/
theorem runRep_cls_some (p : Char → Bool) :
    ∀ (n e pos : Nat) (s : List Char) (caps : Caps) (k : Cont) (out : Caps),
      runRep (Regex.run (.cls p)) n e pos s caps k = some out →
      ∃ m s1, s = m ++ s1 ∧ n ≤ m.length ∧ m.length ≤ n + e ∧ (∀ c ∈ m, p c = true) ∧
        k m s1 caps = some out := by
  intro n
  induction n with
  | zero =>
    intro e pos s caps k out h
    rw [runRep] at h
    obtain ⟨m, s1, hs, hl, hp, hk⟩ := runUpTo_cls_some p e pos s caps k out h
    exact ⟨m, s1, hs, Nat.zero_le _, by omega, hp, hk⟩
  | succ n ih =>
    intro e pos s caps k out h
    rw [runRep] at h
    cases s with
    | nil => rw [run_cls_nil] at h; exact absurd h (by simp)
    | cons d t =>
      rw [run_cls_cons] at h
      by_cases hd : p d = true
      · rw [if_pos hd] at h
        obtain ⟨m, s1, hs, hn, hl, hp, hk⟩ := ih e _ t caps _ out h
        refine ⟨d :: m, s1, by rw [hs]; rfl, by simp only [List.length_cons]; omega,
          by simp only [List.length_cons]; omega, ?_, hk⟩
        intro c hc
        rcases List.mem_cons.mp hc with rfl | hc
        · exact hd
        · exact hp c hc
      · rw [if_neg hd] at h
        exact absurd h (by simp)

/-- The closing part `>?` of the emoji pattern leaves the submatches as they
were. -/
theorem run_emoji_close_some (pos : Nat) (s : List Char) (caps : Caps) (k : Cont) (out : Caps)
    (h : Regex.run (.opt (.lit '>')) pos s caps k = some out) :
    ∃ m s1, k m s1 caps = some out := by
  rw [run_opt] at h
  rcases orElse_some _ _ _ h with h1 | h1
  · obtain ⟨t, _, hk⟩ := run_lit_some _ _ _ _ _ _ h1
    exact ⟨_, _, hk⟩
  · exact ⟨_, _, h1⟩

/-- The part `(\w{2,32}):(\d{17,19})?>?` of the emoji pattern, when it matches,
has read a name and a colon, recorded the name as submatch 2 and, if digits
were taken, an id as submatch 3. -/
theorem run_emoji_body_some (pos : Nat) (s : List Char) (caps : Caps) (k : Cont) (out : Caps)
    (h : Regex.run (.cat (.cap 2 (.rep (.cls isWord) 2 32))
        (.cat (.lit ':')
          (.cat (.opt (.cap 3 (.rep (.cls isDigit) 17 19))) (.opt (.lit '>')))))
      pos s caps k = some out) :
    ∃ name u, s = name ++ ':' :: u ∧ IsEmojiName name ∧ ∃ m s1,
      k m s1 ((2, name) :: caps) = some out ∨
      ∃ id, IsEmojiId id ∧ k m s1 ((3, id) :: (2, name) :: caps) = some out := by
  rw [run_cat, run_cap, run_rep] at h
  obtain ⟨name, s1, hs, hn2, hn32, hw, h1⟩ := runRep_cls_some _ _ _ _ _ _ _ _ h
  rw [run_cat] at h1
  obtain ⟨u, hu, h2⟩ := run_lit_some _ _ _ _ _ _ h1
  rw [run_cat, run_opt] at h2
  refine ⟨name, u, by rw [hs, hu], ⟨hn2, by omega, hw⟩, ?_⟩
  rcases orElse_some _ _ _ h2 with h3 | h3
  · rw [run_cap, run_rep] at h3
    obtain ⟨id, s2, _, hi17, hi19, hd, h4⟩ := runRep_cls_some _ _ _ _ _ _ _ _ h3
    obtain ⟨m, s3, h5⟩ := run_emoji_close_some _ _ _ _ _ h4
    exact ⟨_, _, Or.inr ⟨id, ⟨hi17, by omega, hd⟩, h5⟩⟩
  · obtain ⟨m, s3, h5⟩ := run_emoji_close_some _ _ _ _ _ h3
    exact ⟨_, _, Or.inl h5⟩

/-- A match of the emoji pattern at some offset has read a colon and yields
submatches of the expected shape. -/
theorem run_emoji_some (pos : Nat) (s : List Char) (out : Caps)
    (h : emojiRegex.run pos s [] (fun _ _ caps => some caps) = some out) :
    ':' ∈ s ∧ IsEmojiCaps out := by
  unfold emojiRegex at h
  rw [run_cat, run_opt] at h
  -- after the optional `<`
  have key : ∀ (pos2 : Nat) (s2 : List Char) (k : Cont), (∀ m s c, k m s c = some c) →
      Regex.run (.cat (.opt (.cat (.cap 1 (.lit 'a')) (.lit ':')))
        (.cat (.cap 2 (.rep (.cls isWord) 2 32))
          (.cat (.lit ':')
            (.cat (.opt (.cap 3 (.rep (.cls isDigit) 17 19))) (.opt (.lit '>'))))))
        pos2 s2 [] k = some out → ':' ∈ s2 ∧ IsEmojiCaps out := by
    intro pos2 s2 k hk h1
    rw [run_cat, run_opt] at h1
    rcases orElse_some _ _ _ h1 with h2 | h2
    · rw [run_cat, run_cap] at h2
      obtain ⟨t, ht, h3⟩ := run_lit_some _ _ _ _ _ _ h2
      obtain ⟨t2, ht2, h4⟩ := run_lit_some _ _ _ _ _ _ h3
      obtain ⟨name, u, hs, hname, m, s1, h5⟩ := run_emoji_body_some _ _ _ _ _ h4
      refine ⟨by rw [ht, ht2]; simp, name, [(1, ['a'])], hname, Or.inr rfl, ?_⟩
      rcases h5 with h5 | ⟨id, hid, h5⟩
      · rw [hk] at h5
        exact Or.inl (Option.some.inj h5).symm
      · rw [hk] at h5
        exact Or.inr ⟨id, hid, (Option.some.inj h5).symm⟩
    · obtain ⟨name, u, hs, hname, m, s1, h5⟩ := run_emoji_body_some _ _ _ _ _ h2
      refine ⟨by rw [hs]; simp, name, [], hname, Or.inl rfl, ?_⟩
      rcases h5 with h5 | ⟨id, hid, h5⟩
      · rw [hk] at h5
        exact Or.inl (Option.some.inj h5).symm
      · rw [hk] at h5
        exact Or.inr ⟨id, hid, (Option.some.inj h5).symm⟩
  rcases orElse_some _ _ _ h with h1 | h1
  · obtain ⟨t, ht, h2⟩ := run_lit_some _ _ _ _ _ _ h1
    obtain ⟨hc, ho⟩ := key _ t _ (fun _ _ _ => rfl) h2
    exact ⟨by rw [ht]; exact List.mem_cons_of_mem _ hc, ho⟩
  · exact key _ s _ (fun _ _ _ => rfl) h1

/-- A match found by the search is a match at some offset of some final part of
the text. -/
theorem findFrom_some (re : Regex) (out : Caps) :
    ∀ (s : List Char) (pos : Nat), re.findFrom pos s = some out →
      ∃ pos2 pre s2, s = pre ++ s2 ∧
        re.run pos2 s2 [] (fun _ _ caps => some caps) = some out := by
  intro s
  induction s with
  | nil =>
    intro pos h
    exact ⟨pos, [], [], rfl, h⟩
  | cons c t ih =>
    intro pos h
    rw [Regex.findFrom] at h
    cases hr : re.run pos (c :: t) [] (fun _ _ caps => some caps) with
    | some caps =>
      rw [hr] at h
      exact ⟨pos, [], c :: t, rfl, by rw [hr]; exact h⟩
    | none =>
      rw [hr] at h
      obtain ⟨pos2, pre, s2, hs, h2⟩ := ih (pos + 1) h
      exact ⟨pos2, c :: pre, s2, by rw [hs]; rfl, h2⟩

/-- The search for the emoji pattern: a match needs a colon in the text and
yields submatches of the expected shape. -/
theorem find_emoji_some (s : List Char) (out : Caps)
    (h : emojiRegex.findFrom 0 s = some out) : ':' ∈ s ∧ IsEmojiCaps out := by
  obtain ⟨pos2, pre, s2, hs, h2⟩ := findFrom_some emojiRegex out s 0 h
  obtain ⟨hc, ho⟩ := run_emoji_some pos2 s2 out h2
  exact ⟨by rw [hs]; exact List.mem_append_right _ hc, ho⟩

/-! ## Tagged images and idempotence -/

/-- The characters of a string that starts with `pre`. -/
theorem HasPrefix_append (pre rest : String) : HasPrefix (pre ++ rest) pre = true := by
  unfold HasPrefix
  rw [String.data_append]
  exact List.isPrefixOf_iff_prefix.mpr (List.prefix_append _ _)

/-- A string that has `pre` at its start is `pre` followed by a rest. -/
theorem HasPrefix_elim (x pre : String) (h : HasPrefix x pre = true) :
    ∃ rest : String, x = pre ++ rest := by
  unfold HasPrefix at h
  obtain ⟨t, ht⟩ := List.isPrefixOf_iff_prefix.mp h
  exact ⟨String.mk t, String.ext (by rw [String.data_append, ← ht])⟩

/-- A string that starts with the tag `mp:` resolves to itself. -/
theorem parseImage_mp (rest : String) : parseImage ("mp:" ++ rest) = "mp:" ++ rest := by
  unfold parseImage
  rw [HasPrefix_append]
  simp

/-- A string that resolves to itself whenever one of the first two tests of
`parseImage` accepts it. -/
theorem parseImage_of_tag (x : String)
    (h : isValidDiscordId x = true ∨ HasPrefix x "mp:" = true ∨ HasPrefix x "youtube:" = true
      ∨ HasPrefix x "spotify:" = true ∨ HasPrefix x "twitch:" = true) :
    parseImage x = x := by
  unfold parseImage
  by_cases hid : isValidDiscordId x = true
  · rw [if_pos hid]
  · rw [if_neg hid]
    have : (HasPrefix x "mp:" || HasPrefix x "youtube:" || HasPrefix x "spotify:"
        || HasPrefix x "twitch:") = true := by
      rcases h with h | h | h | h | h
      · exact absurd h hid
      all_goals simp [h]
    rw [if_pos this]

/-- A string that starts with `external/` resolves to `mp:` followed by it. -/
theorem parseImage_external (rest : String) :
    parseImage ("external/" ++ rest) = "mp:" ++ ("external/" ++ rest) := by
  have ht : "external/" ++ rest = String.mk ('e' :: ("xternal/".data ++ rest.data)) :=
    String.ext (by rw [String.data_append]; rfl)
  have hid : isValidDiscordId ("external/" ++ rest) = false := by
    rw [ht]; exact not_isValidDiscordId_of_head 'e' _ (by decide)
  have hp : ∀ pre : String, (∃ c p, pre = String.mk (c :: p) ∧ c ≠ 'e') →
      HasPrefix ("external/" ++ rest) pre = false := by
    rintro pre ⟨c, p, rfl, hch⟩
    rw [ht]
    simp [HasPrefix, List.isPrefixOf, hch]
  unfold parseImage
  rw [hid, hp "mp:" ⟨'m', _, rfl, by decide⟩, hp "youtube:" ⟨'y', _, rfl, by decide⟩,
    hp "spotify:" ⟨'s', _, rfl, by decide⟩, hp "twitch:" ⟨'t', _, rfl, by decide⟩,
    HasPrefix_append]
  simp

/-- C13: image resolution returns unchanged every string that starts with
`mp:`, `youtube:`, `spotify:` or `twitch:` and every platform-native ID (17 to
19 digits), and maps a string that starts with `external/` to `mp:` followed by
that string. -/
theorem parseImage_tagged (rest x : String) :
    parseImage ("mp:" ++ rest) = "mp:" ++ rest ∧
    parseImage ("youtube:" ++ rest) = "youtube:" ++ rest ∧
    parseImage ("spotify:" ++ rest) = "spotify:" ++ rest ∧
    parseImage ("twitch:" ++ rest) = "twitch:" ++ rest ∧
    (isValidDiscordId x = true → parseImage x = x) ∧
    ((17 ≤ x.length ∧ x.length ≤ 19 ∧ ∀ c ∈ x.data, '0' ≤ c ∧ c ≤ '9') → parseImage x = x) ∧
    parseImage ("external/" ++ rest) = "mp:" ++ ("external/" ++ rest) := by
  refine ⟨parseImage_mp rest, ?_, ?_, ?_, ?_, ?_, parseImage_external rest⟩
  · exact parseImage_of_tag _ (Or.inr (Or.inr (Or.inl (HasPrefix_append _ _))))
  · exact parseImage_of_tag _ (Or.inr (Or.inr (Or.inr (Or.inl (HasPrefix_append _ _)))))
  · exact parseImage_of_tag _ (Or.inr (Or.inr (Or.inr (Or.inr (HasPrefix_append _ _)))))
  · intro h
    exact parseImage_of_tag _ (Or.inl h)
  · intro h
    have h2 : isValidDiscordId x = true := by
      rw [isValidDiscordId_iff]
      simpa only [isDigit_iff] using h
    exact parseImage_of_tag _ (Or.inl h2)

/-- Two platform-native IDs resolve to themselves. -/
theorem parseImage_tagged_witness :
    parseImage "123456789012345678" = "123456789012345678" ∧
    parseImage "12345678901234567" = "12345678901234567" :=
  ⟨(parseImage_tagged "" "123456789012345678").2.2.2.2.1 (by decide),
    (parseImage_tagged "" "12345678901234567").2.2.2.2.2.1 (by decide)⟩

/-- C16: image resolution is idempotent on every input. -/
theorem parseImage_idempotent (x : String) : parseImage (parseImage x) = parseImage x := by
  by_cases h1 : isValidDiscordId x = true
  · rw [parseImage_of_tag x (Or.inl h1)]
    exact parseImage_of_tag x (Or.inl h1)
  by_cases h2 : (HasPrefix x "mp:" || HasPrefix x "youtube:" || HasPrefix x "spotify:"
      || HasPrefix x "twitch:") = true
  · have h2b : HasPrefix x "mp:" = true ∨ HasPrefix x "youtube:" = true
        ∨ HasPrefix x "spotify:" = true ∨ HasPrefix x "twitch:" = true := by
      simpa [or_assoc] using h2
    rw [parseImage_of_tag x (Or.inr h2b)]
    exact parseImage_of_tag x (Or.inr h2b)
  by_cases h3 : HasPrefix x "external/" = true
  · obtain ⟨rest, rfl⟩ := HasPrefix_elim x "external/" h3
    rw [parseImage_external]
    exact parseImage_mp _
  have hform : parseImage x =
      if isValidURL x = true then
        match discordCdns.find? (fun cdn => HasPrefix x cdn) with
        | some cdn => ReplaceAll x cdn "mp:"
        | none => x
      else x := by
    unfold parseImage
    rw [if_neg h1, if_neg h2, if_neg h3]
  by_cases h4 : isValidURL x = true
  · rw [if_pos h4] at hform
    cases hf : discordCdns.find? (fun cdn => HasPrefix x cdn) with
    | none =>
      rw [hf] at hform
      rw [hform]
      unfold parseImage
      rw [if_neg h1, if_neg h2, if_neg h3, if_pos h4, hf]
    | some cdn =>
      rw [hf] at hform
      have hpre : HasPrefix x cdn = true := by
        have := List.find?_some hf
        simpa using this
      have hmem : cdn ∈ discordCdns := List.mem_of_find?_eq_some hf
      have hne : cdn.data ≠ [] := by
        simp only [discordCdns, List.mem_cons, List.mem_singleton, List.not_mem_nil,
          or_false] at hmem
        rcases hmem with rfl | rfl | rfl | rfl <;> decide
      obtain ⟨rest, rfl⟩ := HasPrefix_elim x cdn hpre
      change parseImage (cdn ++ rest) = ReplaceAll (cdn ++ rest) cdn "mp:" at hform
      rw [hform, ReplaceAll_at_origin cdn "mp:" rest hne]
      exact parseImage_mp _
  · rw [if_neg h4] at hform
    rw [hform, hform]

/-! ## Request URIs -/

/-- Without a percent sign a path has no malformed escape. -/
theorem unescapeOk_path (l : List Char) (h : '%' ∉ l) : unescapeOk .encodePath l = true := by
  induction l with
  | nil => rfl
  | cons c t ih =>
    have hc : c ≠ '%' := fun e => h (by simp [e])
    have ht : '%' ∉ t := fun e => h (by simp [e])
    unfold unescapeOk
    simp [hc, ih ht]

/-- When `getScheme` finds no scheme, the rest is the whole text. -/
theorem getSchemeFrom_no_scheme (rawURL : List Char) :
    ∀ (s pre : List Char) (i : Nat) (scheme rest : List Char),
      rawURL = pre ++ s → pre.length = i →
      getSchemeFrom rawURL i s = some (scheme, rest) → scheme = [] → rest = rawURL := by
  intro s
  induction s with
  | nil =>
    intro pre i scheme rest _ _ h _
    simp only [getSchemeFrom, Option.some.injEq, Prod.mk.injEq] at h
    exact h.2.symm
  | cons c t ih =>
    intro pre i scheme rest hraw hlen h hs
    rw [getSchemeFrom] at h
    split at h
    · exact ih (pre ++ [c]) (i + 1) scheme rest (by simp [hraw]) (by simp [hlen]) h hs
    · split at h
      · split at h
        · simp only [Option.some.injEq, Prod.mk.injEq] at h
          exact h.2.symm
        · exact ih (pre ++ [c]) (i + 1) scheme rest (by simp [hraw]) (by simp [hlen]) h hs
      · split at h
        · split at h
          · exact absurd h (by simp)
          · rename_i hi
            simp only [Option.some.injEq, Prod.mk.injEq] at h
            have htake : List.take i rawURL = pre := by
              rw [hraw, ← hlen]
              simp
            rw [htake] at h
            have : pre = [] := by rw [h.1]; exact hs
            rw [this] at hlen
            exact absurd hlen.symm hi
        · simp only [Option.some.injEq, Prod.mk.injEq] at h
          exact h.2.symm

/-- What is left once the query is split off is a leading part of the text. -/
theorem dropQuery_isPrefix (l : List Char) : dropQuery l <+: l := by
  unfold dropQuery
  split
  · exact List.dropLast_prefix l
  · exact List.takeWhile_prefix _

/-- Splitting off the query keeps a leading slash. -/
theorem dropQuery_slash (t : List Char) : ∃ t2, dropQuery ('/' :: t) = '/' :: t2 := by
  unfold dropQuery
  split
  · rename_i h
    cases t with
    | nil => simp at h
    | cons d t => exact ⟨_, rfl⟩
  · exact ⟨_, by rw [List.takeWhile_cons_of_pos (by decide)]⟩

/-- A text accepted by `ParseRequestURI` is not empty, and it is `*`, or starts
with a slash, or carries a scheme. -/
theorem parseOk_shape (l : List Char) (h : parseOk l = true) :
    l ≠ [] ∧ (l = ['*'] ∨ (∃ t, l = '/' :: t) ∨
      ∃ scheme rest, getScheme l = some (scheme, rest) ∧ scheme ≠ []) := by
  unfold parseOk at h
  split at h
  · exact absurd h (by simp)
  split at h
  · exact absurd h (by simp)
  rename_i hne
  refine ⟨hne, ?_⟩
  split at h
  · rename_i hstar
    exact Or.inl hstar
  right
  split at h
  · exact absurd h (by simp)
  rename_i scheme rest0 hg
  by_cases hs : scheme = []
  · left
    have hrest : rest0 = l :=
      getSchemeFrom_no_scheme l l [] 0 scheme rest0 rfl rfl hg hs
    subst hs
    subst hrest
    simp only [ne_eq, not_true_eq_false, decide_False, Bool.false_and, Bool.false_eq_true,
      if_false] at h
    by_cases hp : "/".data.isPrefixOf (dropQuery rest0) = true
    · have h1 : "/".data <+: dropQuery rest0 := List.isPrefixOf_iff_prefix.mp hp
      obtain ⟨t, ht⟩ := h1.trans (dropQuery_isPrefix rest0)
      exact ⟨t, ht.symm⟩
    · simp [hp] at h
  · right
    exact ⟨scheme, rest0, hg, hs⟩

/-- A text that starts with a slash and has neither control characters nor a
percent sign is accepted by `ParseRequestURI`. -/
theorem parseOk_slash (t : List Char) (hctl : stringContainsCTLByte ('/' :: t) = false)
    (hpc : '%' ∉ t) : parseOk ('/' :: t) = true := by
  obtain ⟨t2, ht2⟩ := dropQuery_slash t
  have hpre := dropQuery_isPrefix ('/' :: t)
  have hpc2 : '%' ∉ dropQuery ('/' :: t) := by
    intro hm
    have := hpre.subset hm
    simp only [List.mem_cons] at this
    rcases this with h | h
    · exact absurd h (by decide)
    · exact hpc h
  have hg : getScheme ('/' :: t) = some ([], '/' :: t) := by
    unfold getScheme
    rw [getSchemeFrom]
    simp
  unfold parseOk
  rw [hctl, hg]
  simp only [Bool.false_eq_true, if_false]
  rw [if_neg (by simp), if_neg (by simp)]
  rw [ht2] at hpc2
  simp [List.isPrefixOf, ht2, unescapeOk_path _ hpc2]

/-- The two renderings of `unescape` agree on whether there is an error. -/
theorem unescapeOk_eq_isSome (mode : Encoding) :
    ∀ (n : Nat) (l : List Char), l.length ≤ n → unescapeOk mode l = (unescape mode l).isSome := by
  intro n
  induction n with
  | zero =>
    intro l hl
    have : l = [] := List.length_eq_zero.mp (by omega)
    subst this
    rfl
  | succ n ih =>
    intro l hl
    cases l with
    | nil => rfl
    | cons c t =>
      have ht : t.length ≤ n := by simpa using hl
      unfold unescapeOk unescape
      by_cases hc : c = '%'
      · rw [if_pos hc, if_pos hc]
        match t, ht with
        | [], _ => rfl
        | [a], _ => rfl
        | a :: b :: t2, ht =>
          have h2 : t2.length ≤ n := by simp only [List.length_cons] at ht; omega
          simp only []
          split
          · rfl
          · split
            · rfl
            · split
              · rfl
              · rw [ih t2 h2, Option.isSome_map']
      · rw [if_neg hc, if_neg hc]
        split
        · rw [ih t ht, Option.isSome_map']
        · split
          · rfl
          · rw [ih t ht, Option.isSome_map']

/-- Whether `unescape` returns an error, read off the text it returns. -/
theorem unescapeOk_isSome (mode : Encoding) (l : List Char) :
    unescapeOk mode l = (unescape mode l).isSome :=
  unescapeOk_eq_isSome mode l.length l (le_refl _)

/-- Hosts in brackets: an IPv6 address, with port or zone, is accepted; a name,
an IPv4 address, a bracket inside the host or a missing bracket is not. -/
theorem isValidURL_bracketed_hosts :
    isValidURL "http://[::1]/" = true ∧
    isValidURL "http://[::1]:80/" = true ∧
    isValidURL "http://[fe80::1%25en0]/" = true ∧
    isValidURL "http://[::ffff:192.168.0.1]/" = true ∧
    isValidURL "http://[example.com]/" = false ∧
    isValidURL "http://[192.168.0.1]/" = false ∧
    isValidURL "http://a[b]/" = false ∧
    isValidURL "http://example.com[::1]" = false ∧
    isValidURL "http://[::1" = false := by
  decide

/-- `SetURL` in full: the URL is stored when `url.ParseRequestURI` accepts it,
otherwise the call panics and leaves the receiver as it was. -/
theorem SetURL_spec (r : richPresence) (u : String) :
    r.SetURL u = if isValidURL u = true then
        .ok { baseActivity := { activity := { r.activity with URL := u } } }
      else .panic "Invalid URL" r := by
  unfold richPresence.SetURL
  by_cases h : isValidURL u = true
  · rw [if_pos h, if_neg (by simp [h])]
    rfl
  · rw [if_neg h, if_pos (by simpa using h)]

/-- C11 (evaluation at the failing input): the bare absolute path `/foo` and
the string `*` carry no scheme, yet `url.ParseRequestURI` accepts them, so on a
freshly constructed rich presence `SetURL` stores each of them and `AddButton`
stores `/foo` as a button URL. -/
theorem SetURL_accepts_path_and_star :
    NewRichPresence loggedIn = .ok {} ∧
    getScheme "/foo".data = some ([], "/foo".data) ∧
    getScheme "*".data = some ([], "*".data) ∧
    isValidURL "/foo" = true ∧ isValidURL "*" = true ∧
    ({} : richPresence).SetURL "/foo" = .ok { baseActivity := { activity := { URL := "/foo" } } } ∧
    ({} : richPresence).SetURL "*" = .ok { baseActivity := { activity := { URL := "*" } } } ∧
    ({} : richPresence).AddButton "Docs" "/foo" = .ok { baseActivity := { activity :=
      { Buttons := ["Docs"], Metadata := { ButtonUrls := ["/foo"] } } } } := by
  have h : isValidURL "/foo" = true := by decide
  have h2 : isValidURL "*" = true := by decide
  refine ⟨rfl, by decide, by decide, h, h2, ?_, ?_, ?_⟩
  · simp [richPresence.SetURL, h]
  · simp [richPresence.SetURL, h2]
  · exact AddButton_of_valid {} "Docs" "/foo" (by decide) (by decide) (by decide) (by decide) h

/-! ## Activities of a presence -/

/-- Adding a finalizable activity appends its record. -/
theorem AddActivity_of_data (p : presence) (a : activity) (d : Activity)
    (h : a.data = .ok d) :
    p.AddActivity a = .ok { data := { p.data with Activities := p.data.Activities ++ [d] } } := by
  unfold presence.AddActivity
  rw [h]

/-- Adding finalizable activities one after the other appends their records in
call order and changes nothing else. -/
theorem addAll_of_data (acts : List activity) :
    ∀ (p : presence) (ds : List Activity), acts.map activity.data = ds.map Except.ok →
      p.addAll acts = { data := { p.data with Activities := p.data.Activities ++ ds } } := by
  induction acts with
  | nil =>
    intro p ds h
    cases ds with
    | nil => simp [presence.addAll]
    | cons d ds => simp at h
  | cons a acts ih =>
    intro p ds h
    cases ds with
    | nil => simp at h
    | cons d ds =>
      simp only [List.map_cons, List.cons.injEq] at h
      have h1 := AddActivity_of_data p a d h.1
      show presence.addAll acts (p.AddActivity a).state = _
      rw [h1, ih _ ds h.2]
      simp [Outcome.state]

/-- C12: `AddActivity` of a finalizable activity yields the presence whose
activity list is the previous list followed by the finalized record, all other
fields unchanged; a sequence of such calls appends the records in call order;
`SetStatus` assigns the status and changes nothing else. -/
theorem AddActivity_appends :
    (∀ (p : presence) (a : activity) (d : Activity), a.data = .ok d →
      p.AddActivity a
        = .ok { data := { p.data with Activities := p.data.Activities ++ [d] } }) ∧
    (∀ (p : presence) (acts : List activity) (ds : List Activity),
      acts.map activity.data = ds.map Except.ok →
      p.addAll acts = { data := { p.data with Activities := p.data.Activities ++ ds } }) ∧
    (∀ (p : presence) (status : String),
      p.SetStatus status = { data := { p.data with Status := status } }) :=
  ⟨AddActivity_of_data, fun p acts ds h => addAll_of_data acts p ds h, fun _ _ => rfl⟩

/-- A custom status and a rich presence added to a presence whose status was
set. -/
theorem AddActivity_appends_witness :
    (NewPresence.SetStatus "online").addAll
        [.custom { activity := { Name := "Custom Status", Type_ := .Custom, State := "hi" } },
         .rich { baseActivity := { activity := { Name := "Chess" } } }]
      = { data := { (NewPresence.SetStatus "online").data with
            Activities := (NewPresence.SetStatus "online").data.Activities ++
              [{ Name := "Custom Status", Type_ := .Custom, State := "hi" },
               { Name := "Chess" }] } } ∧
    NewPresence.AddActivity (.rich { baseActivity := { activity := { Name := "Chess" } } })
      = .ok { data := { NewPresence.data with
          Activities := NewPresence.data.Activities ++ [{ Name := "Chess" }] } } :=
  ⟨AddActivity_appends.2.1 _ _ _ rfl, AddActivity_appends.1 _ _ _ rfl⟩

/-! ## Failed setters -/

/-- A promoted method that leaves the baseActivity as it was when it fails does
so on the richPresence. -/
theorem rich_promoted_failed (r : richPresence)
    (f : Discordrpcgenerator.baseActivity → Outcome Discordrpcgenerator.baseActivity)
    (hf : ∀ b, (f b).succeeded = false → (f b).state = b)
    (h : (r.promoted f).succeeded = false) : (r.promoted f).state = r := by
  unfold richPresence.promoted at h ⊢
  cases hfb : f r.baseActivity with
  | ok b => rw [hfb] at h; exact absurd h (by simp [Outcome.lift, Outcome.succeeded])
  | panic msg b =>
    have := hf r.baseActivity (by rw [hfb]; rfl)
    rw [hfb] at this
    show ({ r with baseActivity := b } : richPresence) = r
    have hb : b = r.baseActivity := this
    rw [hb]

/-- A promoted method that leaves the baseActivity as it was when it fails does
so on the spotifyRichPresence. -/
theorem spotify_promoted_failed (s : spotifyRichPresence)
    (f : Discordrpcgenerator.baseActivity → Outcome Discordrpcgenerator.baseActivity)
    (hf : ∀ b, (f b).succeeded = false → (f b).state = b)
    (h : (s.promoted f).succeeded = false) : (s.promoted f).state = s := by
  unfold spotifyRichPresence.promoted at h ⊢
  cases hfb : f s.baseActivity with
  | ok b => rw [hfb] at h; exact absurd h (by simp [Outcome.lift, Outcome.succeeded])
  | panic msg b =>
    have := hf s.baseActivity (by rw [hfb]; rfl)
    rw [hfb] at this
    show ({ s with baseActivity := b } : spotifyRichPresence) = s
    have hb : b = s.baseActivity := this
    rw [hb]

/-- The setters of baseActivity leave it as it was when they fail. -/
theorem base_failed_keeps (b : baseActivity) (x : String) (t : Time) :
    ((b.SetApplicationID x).succeeded = false → (b.SetApplicationID x).state = b) ∧
    ((b.SetState x).succeeded = false → (b.SetState x).state = b) ∧
    ((b.SetDetails x).succeeded = false → (b.SetDetails x).state = b) ∧
    ((b.SetLargeImage x).succeeded = false → (b.SetLargeImage x).state = b) ∧
    ((b.SetLargeText x).succeeded = false → (b.SetLargeText x).state = b) ∧
    ((b.SetSmallImage x).succeeded = false → (b.SetSmallImage x).state = b) ∧
    ((b.SetSmallText x).succeeded = false → (b.SetSmallText x).state = b) ∧
    ((b.SetStartTimestamp t).succeeded = false → (b.SetStartTimestamp t).state = b) ∧
    ((b.SetEndTimestamp t).succeeded = false → (b.SetEndTimestamp t).state = b) := by
  refine ⟨?_, ?_, ?_, ?_, ?_, ?_, ?_, ?_, ?_⟩
  · unfold baseActivity.SetApplicationID; split <;> simp [Outcome.succeeded, Outcome.state]
  · unfold baseActivity.SetState; split <;> simp [Outcome.succeeded, Outcome.state]
  · unfold baseActivity.SetDetails; split <;> simp [Outcome.succeeded, Outcome.state]
  · simp [baseActivity.SetLargeImage, Outcome.succeeded]
  · unfold baseActivity.SetLargeText; split <;> simp [Outcome.succeeded, Outcome.state]
  · simp [baseActivity.SetSmallImage, Outcome.succeeded]
  · unfold baseActivity.SetSmallText; split <;> simp [Outcome.succeeded, Outcome.state]
  · simp [baseActivity.SetStartTimestamp, Outcome.succeeded]
  · simp [baseActivity.SetEndTimestamp, Outcome.succeeded]

/-- The setters of richPresence itself leave it as it was when they fail. -/
theorem rich_failed_keeps (r : richPresence) (x y : String) :
    ((r.SetName x).succeeded = false → (r.SetName x).state = r) ∧
    ((r.SetURL x).succeeded = false → (r.SetURL x).state = r) ∧
    ((r.AddButton x y).succeeded = false → (r.AddButton x y).state = r) := by
  refine ⟨?_, ?_, ?_⟩
  · unfold richPresence.SetName; split <;> simp [Outcome.succeeded, Outcome.state]
  · unfold richPresence.SetURL; split <;> simp [Outcome.succeeded, Outcome.state]
  · unfold richPresence.AddButton
    repeat' split
    all_goals simp [Outcome.succeeded, Outcome.state]

/-- The setters of spotifyRichPresence itself leave it as it was when they
fail. -/
theorem spotify_failed_keeps (s : spotifyRichPresence) (x : String) :
    ((s.SetSongId x).succeeded = false → (s.SetSongId x).state = s) ∧
    ((s.SetAlbumId x).succeeded = false → (s.SetAlbumId x).state = s) ∧
    ((s.AddArtistId x).succeeded = false → (s.AddArtistId x).state = s) := by
  refine ⟨?_, ?_, ?_⟩
  · unfold spotifyRichPresence.SetSongId; split <;> simp [Outcome.succeeded, Outcome.state]
  · unfold spotifyRichPresence.SetAlbumId; split <;> simp [Outcome.succeeded, Outcome.state]
  · unfold spotifyRichPresence.AddArtistId; split <;> simp [Outcome.succeeded, Outcome.state]

/-- C17: every setter that fails leaves its receiver exactly as it was: the text
setters, `SetApplicationID`, `SetName`, `SetURL`, `AddButton` (labels and URLs
untouched), `SetSongId`, `SetAlbumId` (album id and context URI untouched) and
`AddArtistId`, also when called as promoted methods. -/
theorem failed_setter_keeps_record :
    (∀ (c : customStatus) (x : String),
      (c.SetState x).succeeded = false → (c.SetState x).state = c) ∧
    (∀ (b : baseActivity) (x : String),
      ((b.SetApplicationID x).succeeded = false → (b.SetApplicationID x).state = b) ∧
      ((b.SetState x).succeeded = false → (b.SetState x).state = b) ∧
      ((b.SetDetails x).succeeded = false → (b.SetDetails x).state = b) ∧
      ((b.SetLargeText x).succeeded = false → (b.SetLargeText x).state = b) ∧
      ((b.SetSmallText x).succeeded = false → (b.SetSmallText x).state = b)) ∧
    (∀ (r : richPresence) (x y : String),
      ((r.SetName x).succeeded = false → (r.SetName x).state = r) ∧
      ((r.SetURL x).succeeded = false → (r.SetURL x).state = r) ∧
      ((r.AddButton x y).succeeded = false → (r.AddButton x y).state = r ∧
        (r.AddButton x y).state.activity.Buttons = r.activity.Buttons ∧
        (r.AddButton x y).state.activity.Metadata.ButtonUrls
          = r.activity.Metadata.ButtonUrls)) ∧
    (∀ (s : spotifyRichPresence) (x : String),
      ((s.SetSongId x).succeeded = false → (s.SetSongId x).state = s) ∧
      ((s.SetAlbumId x).succeeded = false → (s.SetAlbumId x).state = s ∧
        (s.SetAlbumId x).state.activity.Metadata.AlbumId = s.activity.Metadata.AlbumId ∧
        (s.SetAlbumId x).state.activity.Metadata.ContextUri
          = s.activity.Metadata.ContextUri) ∧
      ((s.AddArtistId x).succeeded = false → (s.AddArtistId x).state = s)) ∧
    (∀ (r : richPresence) (call : richPresence.Call),
      (call.run r).succeeded = false → (call.run r).state = r) ∧
    (∀ (s : spotifyRichPresence) (call : spotifyRichPresence.Call),
      (call.run s).succeeded = false → (call.run s).state = s) := by
  refine ⟨?_, ?_, ?_, ?_, ?_, ?_⟩
  · intro c x
    unfold customStatus.SetState; split <;> simp [Outcome.succeeded, Outcome.state]
  · intro b x
    have h := base_failed_keeps b x ⟨0, 0⟩
    exact ⟨h.1, h.2.1, h.2.2.1, h.2.2.2.2.1, h.2.2.2.2.2.2.1⟩
  · intro r x y
    have h := rich_failed_keeps r x y
    refine ⟨h.1, h.2.1, fun hf => ?_⟩
    have := h.2.2 hf
    exact ⟨this, by rw [this], by rw [this]⟩
  · intro s x
    have h := spotify_failed_keeps s x
    refine ⟨h.1, fun hf => ?_, h.2.2⟩
    have := h.2.1 hf
    exact ⟨this, by rw [this], by rw [this]⟩
  · intro r call h
    cases call with
    | SetApplicationID id =>
      exact rich_promoted_failed r _ (fun b => (base_failed_keeps b id ⟨0, 0⟩).1) h
    | SetState x =>
      exact rich_promoted_failed r _ (fun b => (base_failed_keeps b x ⟨0, 0⟩).2.1) h
    | SetDetails x =>
      exact rich_promoted_failed r _
        (fun b => (base_failed_keeps b x ⟨0, 0⟩).2.2.1) h
    | SetLargeImage x =>
      exact rich_promoted_failed r _
        (fun b => (base_failed_keeps b x ⟨0, 0⟩).2.2.2.1) h
    | SetLargeText x =>
      exact rich_promoted_failed r _
        (fun b => (base_failed_keeps b x ⟨0, 0⟩).2.2.2.2.1) h
    | SetSmallImage x =>
      exact rich_promoted_failed r _
        (fun b => (base_failed_keeps b x ⟨0, 0⟩).2.2.2.2.2.1) h
    | SetSmallText x =>
      exact rich_promoted_failed r _
        (fun b => (base_failed_keeps b x ⟨0, 0⟩).2.2.2.2.2.2.1) h
    | SetStartTimestamp t =>
      exact rich_promoted_failed r _
        (fun b => (base_failed_keeps b "" t).2.2.2.2.2.2.2.1) h
    | SetEndTimestamp t =>
      exact rich_promoted_failed r _
        (fun b => (base_failed_keeps b "" t).2.2.2.2.2.2.2.2) h
    | SetName x => exact (rich_failed_keeps r x "").1 h
    | SetType ty =>
      exact absurd h (by simp [richPresence.Call.run, richPresence.SetType, Outcome.succeeded])
    | SetURL x => exact (rich_failed_keeps r x "").2.1 h
    | SetParty id a b =>
      exact absurd h
        (by simp [richPresence.Call.run, richPresence.SetParty, Outcome.succeeded])
    | AddButton x y => exact (rich_failed_keeps r x y).2.2 h
  · intro s call h
    cases call with
    | SetApplicationID id =>
      exact spotify_promoted_failed s _
        (fun b => (base_failed_keeps b id ⟨0, 0⟩).1) h
    | SetState x =>
      exact spotify_promoted_failed s _
        (fun b => (base_failed_keeps b x ⟨0, 0⟩).2.1) h
    | SetDetails x =>
      exact spotify_promoted_failed s _
        (fun b => (base_failed_keeps b x ⟨0, 0⟩).2.2.1) h
    | SetLargeImage x =>
      exact spotify_promoted_failed s _
        (fun b => (base_failed_keeps b x ⟨0, 0⟩).2.2.2.1) h
    | SetLargeText x =>
      exact spotify_promoted_failed s _
        (fun b => (base_failed_keeps b x ⟨0, 0⟩).2.2.2.2.1) h
    | SetSmallImage x =>
      exact spotify_promoted_failed s _
        (fun b => (base_failed_keeps b x ⟨0, 0⟩).2.2.2.2.2.1) h
    | SetSmallText x =>
      exact spotify_promoted_failed s _
        (fun b => (base_failed_keeps b x ⟨0, 0⟩).2.2.2.2.2.2.1) h
    | SetStartTimestamp t =>
      exact spotify_promoted_failed s _
        (fun b => (base_failed_keeps b "" t).2.2.2.2.2.2.2.1) h
    | SetEndTimestamp t =>
      exact spotify_promoted_failed s _
        (fun b => (base_failed_keeps b "" t).2.2.2.2.2.2.2.2) h
    | SetSongId x => exact (spotify_failed_keeps s x).1 h
    | SetAlbumId x => exact (spotify_failed_keeps s x).2.1 h
    | AddArtistId x => exact (spotify_failed_keeps s x).2.2 h

/-- Four rejected calls and the receivers they leave. -/
theorem failed_setter_keeps_record_witness :
    (({ activity := {} } : customStatus).SetState sixtyFiveAccents).state = { activity := {} } ∧
    (({} : richPresence).AddButton "" "https://example.com").state = {} ∧
    (({} : spotifyRichPresence).SetAlbumId "123456789012345678901").state = {} ∧
    ((richPresence.Call.SetApplicationID "12").run {}).state = {} :=
  ⟨failed_setter_keeps_record.1 _ sixtyFiveAccents (by decide),
    ((failed_setter_keeps_record.2.2.1 {} "" "https://example.com").2.2 (by decide)).1,
    ((failed_setter_keeps_record.2.2.2.1 {} "123456789012345678901").2.1 (by decide)).1,
    failed_setter_keeps_record.2.2.2.2.1 {} (.SetApplicationID "12") (by decide)⟩

/-! ## Spotify rich presence -/

/-- A promoted method on a spotifyRichPresence changes what the method changes
on the embedded baseActivity. -/
theorem spotify_promoted_state (s : spotifyRichPresence)
    (f : Discordrpcgenerator.baseActivity → Outcome Discordrpcgenerator.baseActivity) :
    (s.promoted f).state.activity = (f s.baseActivity).state.activity := by
  unfold spotifyRichPresence.promoted
  cases f s.baseActivity <;> rfl

/-- The setters of baseActivity keep the name, the track id and the metadata. -/
theorem base_setters_keep (b : baseActivity) (x : String) (t : Time) :
    ∀ f ∈ [b.SetApplicationID x, b.SetState x, b.SetDetails x, b.SetLargeImage x,
        b.SetLargeText x, b.SetSmallImage x, b.SetSmallText x, b.SetStartTimestamp t,
        b.SetEndTimestamp t],
      f.state.activity.Name = b.activity.Name ∧ f.state.activity.SyncId = b.activity.SyncId ∧
        f.state.activity.Metadata = b.activity.Metadata := by
  intro f hf
  simp only [List.mem_cons, List.mem_singleton, List.not_mem_nil, or_false] at hf
  rcases hf with rfl | rfl | rfl | rfl | rfl | rfl | rfl | rfl | rfl
  · unfold baseActivity.SetApplicationID; split <;> exact ⟨rfl, rfl, rfl⟩
  · unfold baseActivity.SetState; split <;> exact ⟨rfl, rfl, rfl⟩
  · unfold baseActivity.SetDetails; split <;> exact ⟨rfl, rfl, rfl⟩
  · exact ⟨rfl, rfl, rfl⟩
  · unfold baseActivity.SetLargeText; split <;> exact ⟨rfl, rfl, rfl⟩
  · exact ⟨rfl, rfl, rfl⟩
  · unfold baseActivity.SetSmallText; split <;> exact ⟨rfl, rfl, rfl⟩
  · exact ⟨rfl, rfl, rfl⟩
  · exact ⟨rfl, rfl, rfl⟩

/-- What one call does to the name, the track id and the metadata of a
spotifyRichPresence. -/
theorem spotify_Call_run_step (c : spotifyRichPresence.Call) (s : spotifyRichPresence) :
    (c.run s).state.activity.Name = s.activity.Name ∧
    ((c.run s).state.activity.SyncId = s.activity.SyncId ∨
      isValidSpotifyId (c.run s).state.activity.SyncId = true) ∧
    (((c.run s).state.activity.Metadata.AlbumId = s.activity.Metadata.AlbumId ∧
        (c.run s).state.activity.Metadata.ContextUri = s.activity.Metadata.ContextUri) ∨
      (isValidSpotifyId (c.run s).state.activity.Metadata.AlbumId = true ∧
        (c.run s).state.activity.Metadata.ContextUri
          = "spotify:album:" ++ (c.run s).state.activity.Metadata.AlbumId)) ∧
    (c.run s).state.activity.Metadata.ArtistIds
      = s.activity.Metadata.ArtistIds ++ spotifyRichPresence.addedArtistIds [c] := by
  have base : ∀ f : Discordrpcgenerator.baseActivity → Outcome Discordrpcgenerator.baseActivity,
      ((f s.baseActivity).state.activity.Name = s.baseActivity.activity.Name ∧
        (f s.baseActivity).state.activity.SyncId = s.baseActivity.activity.SyncId ∧
        (f s.baseActivity).state.activity.Metadata = s.baseActivity.activity.Metadata) →
      (s.promoted f).state.activity.Name = s.activity.Name ∧
      ((s.promoted f).state.activity.SyncId = s.activity.SyncId ∨
        isValidSpotifyId (s.promoted f).state.activity.SyncId = true) ∧
      (((s.promoted f).state.activity.Metadata.AlbumId = s.activity.Metadata.AlbumId ∧
          (s.promoted f).state.activity.Metadata.ContextUri = s.activity.Metadata.ContextUri) ∨
        (isValidSpotifyId (s.promoted f).state.activity.Metadata.AlbumId = true ∧
          (s.promoted f).state.activity.Metadata.ContextUri
            = "spotify:album:" ++ (s.promoted f).state.activity.Metadata.AlbumId)) ∧
      (s.promoted f).state.activity.Metadata.ArtistIds = s.activity.Metadata.ArtistIds ++ [] := by
    intro f hf
    rw [spotify_promoted_state]
    obtain ⟨h1, h2, h3⟩ := hf
    refine ⟨h1, Or.inl h2, Or.inl ⟨by rw [h3]; rfl, by rw [h3]; rfl⟩, ?_⟩
    rw [h3, List.append_nil]
    rfl
  have hb := base_setters_keep s.baseActivity
  cases c with
  | SetApplicationID x => exact base (fun b => b.SetApplicationID x) (hb x ⟨0, 0⟩ _ (by simp))
  | SetState x => exact base (fun b => b.SetState x) (hb x ⟨0, 0⟩ _ (by simp))
  | SetDetails x => exact base (fun b => b.SetDetails x) (hb x ⟨0, 0⟩ _ (by simp))
  | SetLargeImage x => exact base (fun b => b.SetLargeImage x) (hb x ⟨0, 0⟩ _ (by simp))
  | SetLargeText x => exact base (fun b => b.SetLargeText x) (hb x ⟨0, 0⟩ _ (by simp))
  | SetSmallImage x => exact base (fun b => b.SetSmallImage x) (hb x ⟨0, 0⟩ _ (by simp))
  | SetSmallText x => exact base (fun b => b.SetSmallText x) (hb x ⟨0, 0⟩ _ (by simp))
  | SetStartTimestamp t => exact base (fun b => b.SetStartTimestamp t) (hb "" t _ (by simp))
  | SetEndTimestamp t => exact base (fun b => b.SetEndTimestamp t) (hb "" t _ (by simp))
  | SetSongId x =>
    have e : (spotifyRichPresence.Call.SetSongId x).run s = s.SetSongId x := rfl
    rw [e]
    by_cases h : isValidSpotifyId x = true
    · have hs : s.SetSongId x = .ok { s with baseActivity.activity.SyncId := x } := by
        unfold spotifyRichPresence.SetSongId
        rw [if_neg (by simp [h])]
      rw [hs]
      exact ⟨rfl, Or.inr h, Or.inl ⟨rfl, rfl⟩, (List.append_nil _).symm⟩
    · have hs : s.SetSongId x = .panic "Invalid song id" s := by
        unfold spotifyRichPresence.SetSongId
        rw [if_pos (by simpa using h)]
      rw [hs]
      exact ⟨rfl, Or.inl rfl, Or.inl ⟨rfl, rfl⟩, (List.append_nil _).symm⟩
  | SetAlbumId x =>
    have e : (spotifyRichPresence.Call.SetAlbumId x).run s = s.SetAlbumId x := rfl
    rw [e]
    by_cases h : isValidSpotifyId x = true
    · have hs : s.SetAlbumId x = .ok { baseActivity := { activity := { s.activity with
          Metadata := { s.activity.Metadata with
            AlbumId := x, ContextUri := "spotify:album:" ++ x } } } } := by
        unfold spotifyRichPresence.SetAlbumId
        rw [if_neg (by simp [h])]
        rfl
      rw [hs]
      exact ⟨rfl, Or.inl rfl, Or.inr ⟨h, rfl⟩, (List.append_nil _).symm⟩
    · have hs : s.SetAlbumId x = .panic "Invalid album id" s := by
        unfold spotifyRichPresence.SetAlbumId
        rw [if_pos (by simpa using h)]
      rw [hs]
      exact ⟨rfl, Or.inl rfl, Or.inl ⟨rfl, rfl⟩, (List.append_nil _).symm⟩
  | AddArtistId x =>
    have e : (spotifyRichPresence.Call.AddArtistId x).run s = s.AddArtistId x := rfl
    rw [e]
    by_cases h : isValidSpotifyId x = true
    · have hs : s.AddArtistId x = .ok { s with
          baseActivity.activity.Metadata.ArtistIds := s.activity.Metadata.ArtistIds ++ [x] } := by
        unfold spotifyRichPresence.AddArtistId
        rw [if_neg (by simp [h])]
      have ha : spotifyRichPresence.addedArtistIds [.AddArtistId x] = [x] := by
        simp [spotifyRichPresence.addedArtistIds, h]
      rw [hs, ha]
      exact ⟨rfl, Or.inl rfl, Or.inl ⟨rfl, rfl⟩, rfl⟩
    · have hs : s.AddArtistId x = .panic "Invalid artist id" s := by
        unfold spotifyRichPresence.AddArtistId
        rw [if_pos (by simpa using h)]
      have ha : spotifyRichPresence.addedArtistIds [.AddArtistId x] = [] := by
        simp [spotifyRichPresence.addedArtistIds, h]
      rw [hs, ha]
      exact ⟨rfl, Or.inl rfl, Or.inl ⟨rfl, rfl⟩, (List.append_nil _).symm⟩

/-- The accepted artist ids of a sequence: those of its first call, then those
of the others. -/
theorem addedArtistIds_cons (c : spotifyRichPresence.Call)
    (cs : List spotifyRichPresence.Call) :
    spotifyRichPresence.addedArtistIds (c :: cs)
      = spotifyRichPresence.addedArtistIds [c] ++ spotifyRichPresence.addedArtistIds cs := by
  cases c <;> simp [spotifyRichPresence.addedArtistIds]
  split <;> simp

/-- Every accepted artist id is a valid Spotify ID. -/
theorem addedArtistIds_valid (cs : List spotifyRichPresence.Call) :
    ∀ id ∈ spotifyRichPresence.addedArtistIds cs, isValidSpotifyId id = true := by
  induction cs with
  | nil => intro id h; simp [spotifyRichPresence.addedArtistIds] at h
  | cons c cs ih =>
    intro id h
    cases c
    case AddArtistId x =>
      simp only [spotifyRichPresence.addedArtistIds] at h
      split at h
      · rcases List.mem_cons.mp h with rfl | h
        · assumption
        · exact ih id h
      · exact ih id h
    all_goals exact ih id (by simpa [spotifyRichPresence.addedArtistIds] using h)

/-- After a sequence of calls the name is the one before, the track id and the
album id with its context URI are the ones before or were validated, and the
artist ids are the ones before followed by the accepted ones. -/
theorem spotify_runCalls_inv (calls : List spotifyRichPresence.Call) :
    ∀ s : spotifyRichPresence,
      (s.runCalls calls).activity.Name = s.activity.Name ∧
      ((s.runCalls calls).activity.SyncId = s.activity.SyncId ∨
        isValidSpotifyId (s.runCalls calls).activity.SyncId = true) ∧
      (((s.runCalls calls).activity.Metadata.AlbumId = s.activity.Metadata.AlbumId ∧
          (s.runCalls calls).activity.Metadata.ContextUri = s.activity.Metadata.ContextUri) ∨
        (isValidSpotifyId (s.runCalls calls).activity.Metadata.AlbumId = true ∧
          (s.runCalls calls).activity.Metadata.ContextUri
            = "spotify:album:" ++ (s.runCalls calls).activity.Metadata.AlbumId)) ∧
      (s.runCalls calls).activity.Metadata.ArtistIds
        = s.activity.Metadata.ArtistIds ++ spotifyRichPresence.addedArtistIds calls := by
  induction calls with
  | nil =>
    intro s
    exact ⟨rfl, Or.inl rfl, Or.inl ⟨rfl, rfl⟩, by simp [spotifyRichPresence.runCalls,
      spotifyRichPresence.addedArtistIds]⟩
  | cons c cs ih =>
    intro s
    obtain ⟨a1, a2, a3, a4⟩ := spotify_Call_run_step c s
    obtain ⟨b1, b2, b3, b4⟩ := ih (c.run s).state
    have e : s.runCalls (c :: cs) = (c.run s).state.runCalls cs := rfl
    rw [e]
    refine ⟨b1.trans a1, ?_, ?_, ?_⟩
    · rcases b2 with b2 | b2
      · rcases a2 with a2 | a2
        · exact Or.inl (b2.trans a2)
        · exact Or.inr (by rw [b2]; exact a2)
      · exact Or.inr b2
    · rcases b3 with ⟨b3, b3'⟩ | b3
      · rcases a3 with ⟨a3, a3'⟩ | ⟨a3, a3'⟩
        · exact Or.inl ⟨b3.trans a3, b3'.trans a3'⟩
        · exact Or.inr ⟨by rw [b3]; exact a3, by rw [b3, b3']; exact a3'⟩
      · exact Or.inr b3
    · rw [b4, a4, addedArtistIds_cons c cs, List.append_assoc]

/-- A freshly constructed Spotify rich presence. -/
theorem NewSpotifyRichPresence_ok (client : Session) (s0 : spotifyRichPresence)
    (h : NewSpotifyRichPresence client = .ok s0) :
    s0.activity.Name = "Spotify" ∧ s0.activity.SyncId = "" ∧
      s0.activity.Metadata = { } := by
  unfold NewSpotifyRichPresence at h
  cases hu : client.State.User with
  | none => rw [hu] at h; cases h
  | some u => rw [hu] at h; cases h; exact ⟨rfl, rfl, rfl⟩

/-- C19: after any sequence of calls on a freshly constructed Spotify rich
presence the name is `Spotify` and the data read succeeds; the data read of a
custom status always succeeds. -/
theorem spotify_name_invariant :
    (∀ (client : Session) (s0 : spotifyRichPresence) (calls : List spotifyRichPresence.Call),
      NewSpotifyRichPresence client = .ok s0 →
      (s0.runCalls calls).activity.Name = "Spotify" ∧
      (s0.runCalls calls).data = .ok (s0.runCalls calls).activity) ∧
    (∀ c : customStatus, c.data = .ok c.activity) := by
  refine ⟨?_, fun _ => rfl⟩
  intro client s0 calls h0
  have hn : (s0.runCalls calls).activity.Name = "Spotify" :=
    (spotify_runCalls_inv calls s0).1.trans (NewSpotifyRichPresence_ok client s0 h0).1
  refine ⟨hn, ?_⟩
  show (if (s0.runCalls calls).baseActivity.activity.Name = "" then _ else _) = _
  rw [if_neg]
  · rfl
  · show ¬ (s0.runCalls calls).activity.Name = ""
    rw [hn]
    decide

/-- The name and the data read after three calls, one of them rejected. -/
theorem spotify_name_invariant_witness :
    (freshSpotify.runCalls [.SetState "Song", .SetAlbumId "x", .SetSongId
        "1234567890123456789012"]).activity.Name = "Spotify" ∧
    (freshSpotify.runCalls [.SetState "Song", .SetAlbumId "x", .SetSongId
        "1234567890123456789012"]).data
      = .ok (freshSpotify.runCalls [.SetState "Song", .SetAlbumId "x", .SetSongId
        "1234567890123456789012"]).activity :=
  spotify_name_invariant.1 loggedIn freshSpotify _ rfl

/-- C20: after any sequence of calls on a freshly constructed Spotify rich
presence, the album id and the context URI are both empty or the album id is 22
alphanumeric characters and the context URI is `spotify:album:` followed by it;
the track id is empty or 22 alphanumeric characters; and the artist ids are
exactly the ids of the accepted `AddArtistId` calls, in call order, each 22
alphanumeric characters. -/
theorem spotify_ids_invariant (client : Session) (s0 : spotifyRichPresence)
    (calls : List spotifyRichPresence.Call) (h0 : NewSpotifyRichPresence client = .ok s0) :
    (((s0.runCalls calls).activity.Metadata.AlbumId = "" ∧
        (s0.runCalls calls).activity.Metadata.ContextUri = "") ∨
      (((s0.runCalls calls).activity.Metadata.AlbumId.length = 22 ∧
          ∀ c ∈ (s0.runCalls calls).activity.Metadata.AlbumId.data,
            ('0' ≤ c ∧ c ≤ '9') ∨ ('A' ≤ c ∧ c ≤ 'Z') ∨ ('a' ≤ c ∧ c ≤ 'z')) ∧
        (s0.runCalls calls).activity.Metadata.ContextUri
          = "spotify:album:" ++ (s0.runCalls calls).activity.Metadata.AlbumId)) ∧
    ((s0.runCalls calls).activity.SyncId = "" ∨
      ((s0.runCalls calls).activity.SyncId.length = 22 ∧
        ∀ c ∈ (s0.runCalls calls).activity.SyncId.data,
          ('0' ≤ c ∧ c ≤ '9') ∨ ('A' ≤ c ∧ c ≤ 'Z') ∨ ('a' ≤ c ∧ c ≤ 'z'))) ∧
    (s0.runCalls calls).activity.Metadata.ArtistIds
      = spotifyRichPresence.addedArtistIds calls ∧
    (∀ id ∈ (s0.runCalls calls).activity.Metadata.ArtistIds,
      id.length = 22 ∧
        ∀ c ∈ id.data, ('0' ≤ c ∧ c ≤ '9') ∨ ('A' ≤ c ∧ c ≤ 'Z') ∨ ('a' ≤ c ∧ c ≤ 'z')) := by
  have hv : ∀ id : String, isValidSpotifyId id = true →
      id.length = 22 ∧
        ∀ c ∈ id.data, ('0' ≤ c ∧ c ≤ '9') ∨ ('A' ≤ c ∧ c ≤ 'Z') ∨ ('a' ≤ c ∧ c ≤ 'z') := by
    intro id h
    have := (isValidSpotifyId_iff id).mp h
    simpa only [isAlnum_iff] using this
  obtain ⟨_, n2, n3⟩ := NewSpotifyRichPresence_ok client s0 h0
  obtain ⟨_, i2, i3, i4⟩ := spotify_runCalls_inv calls s0
  have hart : (s0.runCalls calls).activity.Metadata.ArtistIds
      = spotifyRichPresence.addedArtistIds calls := by
    rw [i4, n3]
    rfl
  refine ⟨?_, ?_, hart, ?_⟩
  · rcases i3 with ⟨a, b⟩ | ⟨a, b⟩
    · left
      rw [a, b, n3]
      exact ⟨rfl, rfl⟩
    · right
      exact ⟨hv _ a, b⟩
  · rcases i2 with a | a
    · left
      rw [a, n2]
    · right
      exact hv _ a
  · intro id hid
    rw [hart] at hid
    exact hv id (addedArtistIds_valid calls id hid)

/-- The artist ids after four calls: the two accepted ones, in call order. -/
theorem spotify_ids_invariant_witness :
    (freshSpotify.runCalls [.AddArtistId "1234567890123456789012", .AddArtistId "bad",
        .SetAlbumId "abcdefghijklmnopqrstuv", .AddArtistId "ABCDEFGHIJKLMNOPQRSTUV"]
      ).activity.Metadata.ArtistIds
      = ["1234567890123456789012", "ABCDEFGHIJKLMNOPQRSTUV"] :=
  (spotify_ids_invariant loggedIn freshSpotify
    [.AddArtistId "1234567890123456789012", .AddArtistId "bad",
      .SetAlbumId "abcdefghijklmnopqrstuv", .AddArtistId "ABCDEFGHIJKLMNOPQRSTUV"] rfl).2.2.1.trans
    (by decide)

/-! ## Emoji resolution on every input -/

/-- The class `\w` in terms of character ranges. -/
theorem isWord_iff (c : Char) :
    isWord c = true ↔
      ('0' ≤ c ∧ c ≤ '9') ∨ ('A' ≤ c ∧ c ≤ 'Z') ∨ ('a' ≤ c ∧ c ≤ 'z') ∨ c = '_' := by
  simp only [isWord, isAlnum, Bool.or_eq_true, Bool.and_eq_true, decide_eq_true_eq]
  tauto

/-- The character `<` is not a word character. -/
theorem isWord_ne_lt (c : Char) (h : isWord c = true) : c ≠ '<' := by
  rintro rfl
  revert h
  decide

/-- A match at an offset where the earlier offsets have none is the leftmost
match. -/
theorem findFrom_of_run_at (re : Regex) (pos : Nat) (s : List Char) (r : Caps)
    (h : re.run pos s [] (fun _ _ caps => some caps) = some r) :
    re.findFrom pos s = some r := by
  cases s with
  | nil => simpa [Regex.findFrom] using h
  | cons c t => simp [Regex.findFrom, h]

/-- The emoji pattern on `:name:`: no match at the leading colon, then the name
as submatch 2. -/
theorem find_emoji_colons (name : List Char)
    (h2 : 2 ≤ name.length) (h32 : name.length ≤ 32) (hw : ∀ c ∈ name, isWord c = true) :
    emojiRegex.findFrom 0 (':' :: (name ++ [':'])) = some [(2, name)] := by
  have h0 : emojiRegex.run 0 (':' :: (name ++ [':'])) [] (fun _ _ caps => some caps) = none := by
    unfold emojiRegex
    simp [run_cat, run_opt, run_lit_cons, run_cap, run_rep, runRep, run_cls_cons,
      Option.orElse, isWord, isAlnum]
  rw [Regex.findFrom, h0]
  apply findFrom_of_run_at
  obtain ⟨n0, n1, rest, rfl⟩ : ∃ n0 n1 rest, name = n0 :: n1 :: rest := by
    match name, h2 with
    | n0 :: n1 :: rest, _ => exact ⟨n0, n1, rest, rfl⟩
  have hn0 : n0 ≠ '<' := isWord_ne_lt n0 (hw n0 (by simp))
  have hn1 : n1 ≠ ':' := isWord_ne_colon n1 (hw n1 (by simp))
  have hfail : ∀ (pos : Nat) (t : List Char) (caps : Caps) (k : Cont),
      Regex.run (.cat (.cap 1 (.lit 'a')) (.lit ':')) pos (n0 :: n1 :: t) caps k = none := by
    intro pos t caps k
    rw [run_cat, run_cap, run_lit_cons]
    by_cases h : n0 = 'a'
    · rw [if_pos h, run_lit_cons, if_neg hn1]
    · rw [if_neg h]
  unfold emojiRegex
  rw [run_cat, run_opt, List.cons_append, run_lit_cons, if_neg hn0]
  simp only [Option.orElse]
  rw [run_cat, run_opt, List.cons_append, hfail]
  simp only [Option.orElse]
  rw [← List.cons_append, ← List.cons_append]
  rw [run_emoji_name _ _ (n0 :: n1 :: rest) [] _ _ [(2, n0 :: n1 :: rest)] h2 h32 hw]
  exact run_emoji_id_nil _ _ _ (fun _ _ _ => rfl)

/-- C14: for a name of 2 to 32 word characters, `parseEmoji` maps `:name:` to that
name with an empty id and `animated = false`. -/
theorem parseEmoji_colons (name : String)
    (h2 : 2 ≤ name.length) (h32 : name.length ≤ 32)
    (hw : ∀ c ∈ name.data,
      ('0' ≤ c ∧ c ≤ '9') ∨ ('A' ≤ c ∧ c ≤ 'Z') ∨ ('a' ≤ c ∧ c ≤ 'z') ∨ c = '_') :
    parseEmoji (":" ++ name ++ ":") = { Name := name, ID := "", Animated := false } := by
  have hw2 : ∀ c ∈ name.data, isWord c = true := fun c hc => (isWord_iff c).mpr (hw c hc)
  have e1 : ":" ++ name ++ ":" = String.mk (':' :: (name.data ++ [':'])) := by
    apply String.ext
    simp [String.data_append]
  rw [e1]
  unfold parseEmoji
  rw [not_isValidDiscordId_of_head _ _ (by decide)]
  simp only [Regex.FindStringSubmatch, Bool.false_eq_true, if_false]
  rw [find_emoji_colons name.data h2 h32 hw2]
  simp [Caps.group, List.lookup]

/-- The example of the specification, `:smile:`. -/
theorem parseEmoji_colons_witness :
    parseEmoji (":" ++ "smile" ++ ":") = { Name := "smile", ID := "", Animated := false } :=
  parseEmoji_colons "smile" (by decide) (by decide) (by decide)

/-- The texts of submatches 2 and 3 in the submatches of an emoji match. -/
theorem IsEmojiCaps_groups (out : Caps) (h : IsEmojiCaps out) :
    (∃ name, IsEmojiName name ∧ out.group 2 = String.mk name) ∧
    (out.group 3 = "" ∨ ∃ id, IsEmojiId id ∧ out.group 3 = String.mk id) := by
  obtain ⟨name, pre, hname, hpre, hout⟩ := h
  rcases hpre with rfl | rfl <;> rcases hout with rfl | ⟨id, hid, rfl⟩
  · exact ⟨⟨name, hname, by simp [Caps.group, List.lookup]⟩,
      Or.inl (by simp [Caps.group, List.lookup])⟩
  · exact ⟨⟨name, hname, by simp [Caps.group, List.lookup]⟩,
      Or.inr ⟨id, hid, by simp [Caps.group, List.lookup]⟩⟩
  · exact ⟨⟨name, hname, by simp [Caps.group, List.lookup]⟩,
      Or.inl (by simp [Caps.group, List.lookup])⟩
  · exact ⟨⟨name, hname, by simp [Caps.group, List.lookup]⟩,
      Or.inr ⟨id, hid, by simp [Caps.group, List.lookup]⟩⟩

/-- A text without a colon has no match of the emoji pattern. -/
theorem find_emoji_none (s : List Char) (h : ':' ∉ s) : emojiRegex.findFrom 0 s = none := by
  cases hf : emojiRegex.findFrom 0 s with
  | none => rfl
  | some out => exact absurd (find_emoji_some s out hf).1 h

/-- C15: a token that is not a platform-native ID and in which the emoji pattern
finds no match, in particular such a token without a colon, resolves to the
whole token as name with an empty id and `animated = false`; a token that is a
platform-native ID resolves to that id with an empty name and
`animated = false`. -/
theorem parseEmoji_literal_or_id :
    (∀ text : String, isValidDiscordId text = false →
      emojiRegex.FindStringSubmatch text = none →
      parseEmoji text = { Name := text, ID := "", Animated := false }) ∧
    (∀ text : String, isValidDiscordId text = false → ':' ∉ text.data →
      emojiRegex.FindStringSubmatch text = none ∧
      parseEmoji text = { Name := text, ID := "", Animated := false }) ∧
    (∀ text : String, isValidDiscordId text = true →
      parseEmoji text = { Name := "", ID := text, Animated := false }) := by
  have h1 : ∀ text : String, isValidDiscordId text = false →
      emojiRegex.FindStringSubmatch text = none →
      parseEmoji text = { Name := text, ID := "", Animated := false } := by
    intro text hid hm
    unfold parseEmoji
    rw [hid, hm]
    rfl
  refine ⟨h1, ?_, ?_⟩
  · intro text hid hc
    have hm : emojiRegex.FindStringSubmatch text = none := find_emoji_none text.data hc
    exact ⟨hm, h1 text hid hm⟩
  · intro text hid
    unfold parseEmoji
    rw [hid]
    rfl

/-- A plain word and a platform-native ID. -/
theorem parseEmoji_literal_or_id_witness :
    parseEmoji "smile" = { Name := "smile", ID := "", Animated := false } ∧
    parseEmoji "123456789012345678"
      = { Name := "", ID := "123456789012345678", Animated := false } :=
  ⟨(parseEmoji_literal_or_id.2.1 "smile" (by decide) (by decide)).2,
    parseEmoji_literal_or_id.2.2 "123456789012345678" (by decide)⟩

/-- C18: for every input, the id of the emoji that `parseEmoji` returns is empty
or consists of 17 to 19 decimal digits, and `animated` is true only if the
returned name is non-empty. -/
theorem parseEmoji_id_shape (text : String) :
    ((parseEmoji text).ID = "" ∨
      (17 ≤ (parseEmoji text).ID.length ∧ (parseEmoji text).ID.length ≤ 19 ∧
        ∀ c ∈ (parseEmoji text).ID.data, '0' ≤ c ∧ c ≤ '9')) ∧
    ((parseEmoji text).Animated = true → (parseEmoji text).Name ≠ "") := by
  unfold parseEmoji
  by_cases hid : isValidDiscordId text = true
  · rw [if_pos hid]
    refine ⟨Or.inr ?_, fun h => absurd h (by simp)⟩
    have := (isValidDiscordId_iff text).mp hid
    simpa only [isDigit_iff] using this
  · rw [if_neg hid]
    cases hf : emojiRegex.FindStringSubmatch text with
    | none => exact ⟨Or.inl rfl, fun h => absurd h (by simp)⟩
    | some out =>
      obtain ⟨⟨name, hname, hg2⟩, hg3⟩ :=
        IsEmojiCaps_groups out (find_emoji_some text.data out hf).2
      refine ⟨?_, fun _ => ?_⟩
      · show out.group 3 = "" ∨ _
        rcases hg3 with h | ⟨id, ⟨h17, h19, hd⟩, h⟩
        · exact Or.inl h
        · right
          show 17 ≤ (out.group 3).length ∧ (out.group 3).length ≤ 19 ∧
            ∀ c ∈ (out.group 3).data, '0' ≤ c ∧ c ≤ '9'
          rw [h]
          exact ⟨h17, h19, fun c hc => (isDigit_iff c).mp (hd c hc)⟩
      · show out.group 2 ≠ ""
        rw [hg2]
        intro he
        have : name = [] := congrArg String.data he
        rw [this] at hname
        exact absurd hname.1 (by simp)

/-- The animated example of the specification has a name. -/
theorem parseEmoji_id_shape_witness :
    (parseEmoji "<a:wave:123456789012345678>").Name ≠ "" :=
  (parseEmoji_id_shape "<a:wave:123456789012345678>").2 (by decide)

/-! ## Timestamps -/

/-- `UnixMilli` on an instant of 2023 and on one whose milliseconds overflow
`int64`. -/
theorem UnixMilli_examples :
    (Time.mk 1700000000 123456789).UnixMilli = 1700000000123 ∧
    (Time.mk 9223372036854776 0).UnixMilli = -9223372036854775616 := by
  decide

end Discordrpcgenerator
